import Mathlib

/-!
Verification of the n8n-workflow-library scripts against their
natural-language specification.

The Python scripts are shallowly embedded:

* JSON documents become the inductive type Json (numbers are modelled as
  integers; the workflow fields the scripts inspect are strings, objects,
  arrays, booleans and nulls).
* Python dictionaries become ordered association lists, preserving
  insertion order as CPython dictionaries do.
* Fallible Python operations (attribute access on non-dictionaries,
  len on non-sized values, iteration over non-iterables) become
  Except String computations, so a raised exception is an explicit
  error value.
* Floating point arithmetic in the complexity score only ever involves
  halves of small integers, which doubles represent exactly, so it is
  modelled with rational numbers.
-/

/-- A JSON value, as produced by json.loads.  Numbers are modelled as
integers: every numeric literal the claims exercise is integral. -/
inductive Json where
  | null : Json
  | bool : Bool → Json
  | num : Int → Json
  | str : String → Json
  | arr : List Json → Json
  | obj : List (String × Json) → Json

namespace Json

mutual

/-- Structural equality of JSON values, the Python == on loaded JSON. -/
def beq : Json → Json → Bool
  | .null, .null => true
  | .bool a, .bool b => a == b
  | .num a, .num b => a == b
  | .str a, .str b => a == b
  | .arr a, .arr b => beqList a b
  | .obj a, .obj b => beqFields a b
  | _, _ => false

/-- Elementwise equality of JSON arrays. -/
def beqList : List Json → List Json → Bool
  | [], [] => true
  | a :: as, b :: bs => beq a b && beqList as bs
  | _, _ => false

/-- Fieldwise equality of JSON objects (same keys in the same order). -/
def beqFields : List (String × Json) → List (String × Json) → Bool
  | [], [] => true
  | (ka, va) :: as, (kb, vb) :: bs => ka == kb && beq va vb && beqFields as bs
  | _, _ => false

end

instance : BEq Json := ⟨beq⟩

/-- First-match lookup in an object field list (CPython dictionaries have
unique keys, so first match is the only match). -/
def lookupField : List (String × Json) → String → Option Json
  | [], _ => none
  | (k, v) :: rest, key => if k = key then some v else lookupField rest key

/-- Prefix test on character lists. -/
def isPrefixChars : List Char → List Char → Bool
  | [], _ => true
  | _ :: _, [] => false
  | c :: cs, d :: ds => c = d && isPrefixChars cs ds

/-- Occurrence of a needle anywhere in a character list. -/
def containsChars (needle : List Char) : List Char → Bool
  | [] => isPrefixChars needle []
  | c :: cs => isPrefixChars needle (c :: cs) || containsChars needle cs

/-- Substring test, Python needle in haystack for strings (an empty
needle always occurs). -/
def strContains (hay needle : String) : Bool :=
  containsChars needle.data hay.data

/-- ASCII lower-casing of a string, one character at a time.  It agrees
with Python lower on every ASCII string, and every string the scripts
lower-case before searching comes from json.dumps with ensure_ascii. -/
def lowerStr (s : String) : String :=
  String.mk (s.data.map Char.toLower)

/-- Splitting at every occurrence of a separator character, the Python
str.split with a one-character separator (the empty string splits to one
empty piece). -/
def splitOnChar (sep : Char) : List Char → List (List Char)
  | [] => [[]]
  | c :: cs =>
    if c = sep then [] :: splitOnChar sep cs
    else
      match splitOnChar sep cs with
      | [] => [[c]]
      | r :: rs => (c :: r) :: rs

/-- Hexadecimal digit, lower case, as the CPython json encoder emits. -/
def hexDigit (n : Nat) : Char :=
  if n < 10 then Char.ofNat (48 + n) else Char.ofNat (87 + n)

/-- Four-digit lower-case hexadecimal rendering of a code unit. -/
def hex4 (n : Nat) : String :=
  String.mk [hexDigit (n / 4096 % 16), hexDigit (n / 256 % 16),
             hexDigit (n / 16 % 16), hexDigit (n % 16)]

/-- Escape one character the way json.dumps with ensure_ascii does:
quote, backslash and the short control escapes get two-character forms,
other control characters and all non-ASCII characters become uXXXX
escapes (with surrogate pairs above the basic plane). -/
def escChar (c : Char) : String :=
  if c = '"' then "\\\""
  else if c = '\\' then "\\\\"
  else if c = '\n' then "\\n"
  else if c = '\r' then "\\r"
  else if c = '\t' then "\\t"
  else if c = Char.ofNat 8 then "\\b"
  else if c = Char.ofNat 12 then "\\f"
  else if c.toNat < 32 then "\\u" ++ hex4 c.toNat
  else if c.toNat < 127 then String.singleton c
  else if c.toNat < 65536 then "\\u" ++ hex4 c.toNat
  else
    let n := c.toNat - 65536
    "\\u" ++ hex4 (55296 + n / 1024) ++ "\\u" ++ hex4 (56320 + n % 1024)

/-- Serialization of a Python string literal by json.dumps. -/
def dumpsStr (s : String) : String :=
  "\"" ++ String.join (s.data.map escChar) ++ "\""

mutual

/-- The default json.dumps serialization: separators are a comma plus a
space between items and a colon plus a space after keys, ensure_ascii
escaping, insertion order of dictionary keys. -/
def dumps : Json → String
  | .null => "null"
  | .bool true => "true"
  | .bool false => "false"
  | .num n => toString n
  | .str s => dumpsStr s
  | .arr xs => "[" ++ dumpsArr xs ++ "]"
  | .obj fs => "\x7b" ++ dumpsObj fs ++ "\x7d"

/-- Comma-separated serialization of array elements. -/
def dumpsArr : List Json → String
  | [] => ""
  | [x] => dumps x
  | x :: rest => dumps x ++ ", " ++ dumpsArr rest

/-- Comma-separated serialization of object fields. -/
def dumpsObj : List (String × Json) → String
  | [] => ""
  | [(k, v)] => dumpsStr k ++ ": " ++ dumps v
  | (k, v) :: rest => dumpsStr k ++ ": " ++ dumps v ++ ", " ++ dumpsObj rest

end

/-- Python dict.get with a default: succeeds on dictionaries, raises
AttributeError on every other value. -/
def jGet (j : Json) (key : String) (dflt : Json) : Except String Json :=
  match j with
  | .obj fs => .ok ((lookupField fs key).getD dflt)
  | _ => .error "AttributeError: value has no attribute get"

/-- Python len: defined for strings, lists and dictionaries, a TypeError
for every other value. -/
def pyLen : Json → Except String Nat
  | .str s => .ok s.length
  | .arr xs => .ok xs.length
  | .obj fs => .ok fs.length
  | _ => .error "TypeError: object has no len"

/-- Python iteration: lists yield elements, strings yield one-character
strings, dictionaries yield their keys, everything else raises
TypeError. -/
def pyIter : Json → Except String (List Json)
  | .arr xs => .ok xs
  | .str s => .ok (s.data.map (fun c => Json.str (String.singleton c)))
  | .obj fs => .ok (fs.map (fun p => Json.str p.1))
  | _ => .error "TypeError: value is not iterable"

/-- Python membership test needle in j for a string needle: key test on
dictionaries, substring test on strings, element test on lists, a
TypeError otherwise. -/
def pyContains (needle : String) : Json → Except String Bool
  | .obj fs => .ok (fs.any (fun p => p.1 = needle))
  | .str s => .ok (strContains s needle)
  | .arr xs => .ok (xs.contains (Json.str needle))
  | _ => .error "TypeError: argument is not iterable"

/-- Python str.lower on a value expected to be a string; AttributeError
otherwise.  The strings it is applied to come from json.dumps with
ensure_ascii, hence are pure ASCII, where String.toLower agrees with
Python lower. -/
def pyLower : Json → Except String String
  | .str s => .ok (lowerStr s)
  | _ => .error "AttributeError: value has no attribute lower"

/-- Coerce to a string or raise, modelling a string method applied to a
non-string value. -/
def asStr : Json → Except String String
  | .str s => .ok s
  | _ => .error "TypeError: expected a string"

end Json

/-! ## Metadata extractor (scripts/single_scraper.py) -/

namespace Scraper

open Json

/-- The regex class backslash-s restricted to ASCII, which is all that
json.dumps with ensure_ascii can produce. -/
def isSpaceRe (c : Char) : Bool :=
  c = ' ' || c = '\t' || c = '\n' || c = '\r' || c = Char.ofNat 11 || c = Char.ofNat 12

/-- Lower-case ASCII letters and digits: the class A-Za-z0-9 applied to a
lower-cased ASCII string. -/
def isAlnumLower (c : Char) : Bool :=
  ('a' ≤ c && c ≤ 'z') || ('0' ≤ c && c ≤ '9')

/-- A double or single quote, the regex class of quote characters. -/
def isQuoteChar (c : Char) : Bool :=
  c = '"' || c = Char.ofNat 39

/-- The regex class of a quote, whitespace or colon. -/
def isClassWSC (c : Char) : Bool :=
  c = '"' || isSpaceRe c || c = ':'

/-- Match a literal character sequence, then continue with k. -/
def matchLit : List Char → (List Char → Bool) → List Char → Bool
  | [], k, s => k s
  | c :: cs, k, s =>
    match s with
    | [] => false
    | d :: ds => c = d && matchLit cs k ds

/-- Match zero or one character of a class, then continue with k
(existence semantics of a regex question-mark quantifier). -/
def matchOpt (cls : Char → Bool) (k : List Char → Bool) (s : List Char) : Bool :=
  k s ||
    (match s with
     | [] => false
     | c :: cs => cls c && k cs)

/-- Match one character of a class, then continue with k. -/
def matchOne (cls : Char → Bool) (k : List Char → Bool) (s : List Char) : Bool :=
  match s with
  | [] => false
  | c :: cs => cls c && k cs

/-- Match one or more characters of a class, then continue with k
(existence semantics of a regex plus quantifier, all splits tried). -/
def matchPlus (cls : Char → Bool) (k : List Char → Bool) : List Char → Bool
  | [] => false
  | c :: cs => cls c && (k cs || matchPlus cls k cs)

/-- Match exactly n characters of a class, then continue with k. -/
def matchCount (cls : Char → Bool) : Nat → (List Char → Bool) → List Char → Bool
  | 0, k, s => k s
  | _ + 1, _, [] => false
  | n + 1, k, c :: cs => cls c && matchCount cls n k cs

/-- The unanchored re.search: try the prefix matcher at every start
position, including the empty suffix. -/
def scanFor (p : List Char → Bool) : List Char → Bool
  | [] => p []
  | c :: cs => p (c :: cs) || scanFor p cs

/-- Prefix matcher for the first hardcoded-secret pattern of
uses_proper_credentials, on lower-cased text: the literal api, an
optional underscore or dash, the literal key, one or more of
quote-whitespace-colon, a quote, then at least twenty alphanumerics
(a match exists iff twenty are present). -/
def hardcodedApiKeyAt : List Char → Bool :=
  matchLit "api".data (matchOpt (fun c => c = '_' || c = '-')
    (matchLit "key".data (matchPlus isClassWSC
      (matchOne isQuoteChar (matchCount isAlnumLower 20 (fun _ => true))))))

/-- Prefix matcher for the second pattern: the literal password, one or
more of quote-whitespace-colon, a quote, one or more non-quote
characters, and a closing quote. -/
def hardcodedPasswordAt : List Char → Bool :=
  matchLit "password".data (matchPlus isClassWSC
    (matchOne isQuoteChar (matchPlus (fun c => !isQuoteChar c)
      (matchOne isQuoteChar (fun _ => true)))))

/-- Prefix matcher for the third pattern: the literal Bearer with a
space (lower-cased, since the search is case-insensitive) followed by at
least twenty alphanumerics. -/
def hardcodedBearerAt : List Char → Bool :=
  matchLit "bearer ".data (matchCount isAlnumLower 20 (fun _ => true))

/-- The hardcoded-credential scan of uses_proper_credentials: each of
the three patterns searched case-insensitively (both the text and each
literal are lower-cased; all classes are closed under ASCII case). -/
def hasHardcodedSecret (s : String) : Bool :=
  let t := s.data.map Char.toLower
  scanFor hardcodedApiKeyAt t || scanFor hardcodedPasswordAt t ||
    scanFor hardcodedBearerAt t

/-- The expression workflow_data.get(.nodes., []). -/
def getNodesRaw (d : Json) : Except String Json :=
  jGet d "nodes" (.arr [])

/-- Iteration over workflow_data.get(.nodes., []). -/
def getNodesList (d : Json) : Except String (List Json) := do
  pyIter (← getNodesRaw d)

/-- The generator any(needle in node.get(.type., .').lower() for node in
nodes), with the Python short-circuit: nodes after the first hit are
never touched. -/
def anyTypeContains (needle : String) : List Json → Except String Bool
  | [] => .ok false
  | n :: rest => do
    let t ← jGet n "type" (.str "")
    let tl ← pyLower t
    if strContains tl needle then .ok true else anyTypeContains needle rest

/-- The generator any(needle in node for node in nodes), with the Python
short-circuit. -/
def anyHasKey (needle : String) : List Json → Except String Bool
  | [] => .ok false
  | n :: rest => do
    let b ← pyContains needle n
    if b then .ok true else anyHasKey needle rest

/-- The service_mapping table of extract_integrations. -/
def service_mapping : List (String × List String) :=
  [("gmail", ["gmail", "gmailTrigger"]),
   ("google-sheets", ["googleSheets"]),
   ("slack", ["slack"]),
   ("discord", ["discord"]),
   ("telegram", ["telegram"]),
   ("stripe", ["stripe"]),
   ("openai", ["openai", "gpt"]),
   ("anthropic", ["anthropic", "claude"]),
   ("groq", ["groq"]),
   ("http", ["httpRequest", "webhook"]),
   ("mysql", ["mysql"]),
   ("postgres", ["postgres"]),
   ("notion", ["notion"]),
   ("airtable", ["airtable"]),
   ("hubspot", ["hubspot"]),
   ("salesforce", ["salesforce"]),
   ("zapier", ["zapier"]),
   ("twilio", ["twilio"]),
   ("sendgrid", ["sendgrid"]),
   ("mailchimp", ["mailchimp"])]

/-- The lower-cased type tag of every node, in node order (the first
malformed node raises, as in the Python loop). -/
def nodeTypesLower : List Json → Except String (List String)
  | [] => .ok []
  | n :: rest => do
    let t ← jGet n "type" (.str "")
    let tl ← pyLower t
    let restT ← nodeTypesLower rest
    .ok (tl :: restT)

/-- extract_integrations: a service is collected when some pattern of its
mapping entry occurs (lower-cased) inside some node type (lower-cased).
The source accumulates a Python set and returns list(set), whose
iteration order is unspecified; the model returns the services in
mapping order, which is the same set. -/
def extract_integrations (d : Json) : Except String (List String) := do
  let ns ← getNodesList d
  let types ← nodeTypesLower ns
  .ok ((service_mapping.filter (fun sp =>
      types.any (fun tl => sp.2.any (fun pat => strContains tl (lowerStr pat))))).map
    Prod.fst)

/-- The category_patterns table of detect_categories. -/
def category_patterns : List (String × List String) :=
  [("ai-automation", ["gpt", "claude", "openai", "anthropic", "llm", "langchain", "ai", "groq"]),
   ("email-automation", ["gmail", "email", "mailchimp", "sendgrid"]),
   ("data-processing", ["csv", "excel", "transform", "database", "mysql", "postgres"]),
   ("communication", ["slack", "discord", "telegram", "twilio", "sms"]),
   ("payment-processing", ["stripe", "paypal", "payment", "invoice"]),
   ("file-management", ["gdrive", "dropbox", "s3", "upload", "download"]),
   ("web-scraping", ["scrape", "crawl", "extract", "parse"]),
   ("api-integration", ["http", "webhook", "rest", "api"]),
   ("scheduling", ["cron", "schedule", "trigger"]),
   ("notifications", ["notify", "alert", "notification"])]

/-- The categories whose pattern list matches the lower-cased serialized
document. -/
def matchedCategories (d : Json) : List String :=
  let workflow_text := lowerStr (dumps d)
  (category_patterns.filter (fun cp =>
    cp.2.any (fun pat => strContains workflow_text pat))).map Prod.fst

/-- detect_categories: the matching categories, or the general fallback
when nothing matches.  The source returns list(set); the model uses
table order for the same set. -/
def detect_categories (d : Json) : List String :=
  let matched := matchedCategories d
  if matched.isEmpty then ["general"] else matched

/-- len(workflow_data.get(.nodes., [])). -/
def nodeCountOf (d : Json) : Except String Nat := do
  pyLen (← jGet d "nodes" (.arr []))

/-- len(workflow_data.get(.connections., dict())). -/
def connCountOf (d : Json) : Except String Nat := do
  pyLen (← jGet d "connections" (.obj []))

/-- has_conditionals of calculate_complexity. -/
def hasCondNodes (d : Json) : Except String Bool := do
  anyTypeContains "if" (← getNodesList d)

/-- has_loops of calculate_complexity. -/
def hasLoopNodes (d : Json) : Except String Bool := do
  anyTypeContains "loop" (← getNodesList d)

/-- The complexity score: node count plus half the connection count,
plus three for a conditional, plus five for a loop.  The Python float
arithmetic is exact on these values, so rationals model it exactly. -/
def complexityScore (nc cc : Nat) (hIf hLoop : Bool) : ℚ :=
  (nc : ℚ) + (cc : ℚ) * (1 / 2 : ℚ) +
    (if hIf then 3 else 0) + (if hLoop then 5 else 0)

/-- The doubled complexity score: twice complexityScore, an integer,
letting the exact float threshold tests run on naturals. -/
def complexityScore2 (nc cc : Nat) (hIf hLoop : Bool) : Nat :=
  2 * nc + cc + (if hIf then 6 else 0) + (if hLoop then 10 else 0)

/-- calculate_complexity of single_scraper.  The float comparisons
score less-or-equal 5 and 15 are exact and equivalent to the doubled
integer comparisons against 10 and 30 (the lemma complexityScore2_spec
proves the equivalence with the rational score). -/
def calculate_complexity (d : Json) : Except String String := do
  let nc ← nodeCountOf d
  let cc ← connCountOf d
  let hIf ← hasCondNodes d
  let hLoop ← hasLoopNodes d
  let s2 := complexityScore2 nc cc hIf hLoop
  if s2 ≤ 10 then .ok "beginner"
  else if s2 ≤ 30 then .ok "intermediate"
  else .ok "advanced"

/-- The sticky-note node type. -/
def stickyType : Json := .str "n8n-nodes-base.stickyNote"

/-- The node loop of has_documentation: a sticky note whose parameters
content has length over one hundred means documented; the Python loop
returns at the first such node. -/
def hasDocNodes : List Json → Except String Bool
  | [] => .ok false
  | n :: rest => do
    let t ← jGet n "type" .null
    if t == stickyType then
      let ps ← jGet n "parameters" (.obj [])
      let c ← jGet ps "content" (.str "")
      let l ← pyLen c
      if l > 100 then .ok true else hasDocNodes rest
    else hasDocNodes rest

/-- has_documentation of single_scraper. -/
def has_documentation (d : Json) : Except String Bool := do
  hasDocNodes (← getNodesList d)

/-- uses_proper_credentials: false as soon as a hardcoded-secret pattern
matches the serialized document (the node scan is then never reached),
otherwise true iff some node has a credentials key. -/
def uses_proper_credentials (d : Json) : Except String Bool :=
  if hasHardcodedSecret (dumps d) then .ok false
  else do
    anyHasKey "credentials" (← getNodesList d)

/-- The error-indicator table of has_error_handling.  The last entry
keeps its source capitalization: it is compared against a lower-cased
string, so it can never match, exactly as in the Python. -/
def error_indicators : List String :=
  ["error", "catch", "try", "fail", "stopAndError"]

/-- has_error_handling: some indicator occurs in the lower-cased
serialized document.  Total, no node access. -/
def has_error_handling (d : Json) : Bool :=
  let workflow_str := lowerStr (dumps d)
  error_indicators.any (fun ind => strContains workflow_str ind)

/-- The anchored default-name regex of is_well_organized: one of the
four prefixes followed only by digits, with the regex dollar also
accepting a single trailing newline. -/
def defaultNodeName (name : String) : Bool :=
  let cs := name.data
  let cs := if cs.getLast? = some '\n' then cs.dropLast else cs
  ["Node", "HTTP Request", "Set", "If"].any (fun p =>
    isPrefixChars p.data cs && (cs.drop p.length).all Char.isDigit)

/-- Count of default-named nodes; re.match on a non-string name raises,
as in Python. -/
def countDefaultNames : List Json → Except String Nat
  | [] => .ok 0
  | n :: rest => do
    let nm ← asStr (← jGet n "name" (.str ""))
    let c ← countDefaultNames rest
    .ok ((if defaultNodeName nm then 1 else 0) + c)

/-- is_well_organized: fewer than three nodes is organized; otherwise
fewer than half the nodes carry default names.  The Python float
comparison default_names < len(nodes) / 2 is exact and holds iff
2 * default_names < len(nodes), the integer form used here. -/
def is_well_organized (d : Json) : Except String Bool := do
  let nodesV ← jGet d "nodes" (.arr [])
  let l ← pyLen nodesV
  if l < 3 then .ok true
  else do
    let ns ← pyIter nodesV
    let dn ← countDefaultNames ns
    .ok (decide (2 * dn < l))

/-- The modern_services table of has_modern_integrations. -/
def modern_services : List String :=
  ["openai", "anthropic", "gpt", "claude", "langchain", "stripe", "twilio"]

/-- has_modern_integrations: some modern service name occurs in the
lower-cased serialized document.  Total. -/
def has_modern_integrations (d : Json) : Bool :=
  let workflow_str := lowerStr (dumps d)
  modern_services.any (fun s => strContains workflow_str s)

/-- is_parameterized: a double opening brace or a dollar-parenthesis
occurs in the serialized document (not lower-cased in the source). -/
def is_parameterized (d : Json) : Bool :=
  let workflow_str := dumps d
  strContains workflow_str "\x7b\x7b" || strContains workflow_str "$("

/-- The weighted sum of the six quality checks with the source weights
30, 20, 15, 10, 15, 10. -/
def qualitySum (b1 b2 b3 b4 b5 b6 : Bool) : Nat :=
  (if b1 then 30 else 0) + (if b2 then 20 else 0) + (if b3 then 15 else 0) +
    (if b4 then 10 else 0) + (if b5 then 15 else 0) + (if b6 then 10 else 0)

/-- calculate_quality_score: the six checks evaluated in source order,
their weighted sum capped at one hundred by min as in the source. -/
def calculate_quality_score (d : Json) : Except String Nat := do
  let b1 ← has_documentation d
  let b2 ← uses_proper_credentials d
  let b3 := has_error_handling d
  let b4 ← is_well_organized d
  let b5 := has_modern_integrations d
  let b6 := is_parameterized d
  .ok (min (qualitySum b1 b2 b3 b4 b5 b6) 100)

/-- Python truthiness of a JSON value. -/
def pyTruthy : Json → Bool
  | .null => false
  | .bool b => b
  | .num n => n ≠ 0
  | .str s => !s.isEmpty
  | .arr xs => !xs.isEmpty
  | .obj fs => !fs.isEmpty

/-- The re.sub of a leading run of hash marks plus following whitespace,
then Python strip, applied to one description line. -/
def stripHeaderMark (line : String) : String :=
  let cs := line.data
  let cs := if cs.head? = some '#' then (cs.dropWhile (· = '#')).dropWhile isSpaceRe else cs
  String.mk ((cs.dropWhile isSpaceRe).reverse.dropWhile isSpaceRe).reverse

/-- The inner line loop of extract_description: the first of the (at
most three) lines that is nonempty and longer than twenty characters
after header stripping; the source breaks there. -/
def firstDescLine : List String → Option String
  | [] => none
  | l :: rest =>
    let l2 := stripHeaderMark l
    if !l2.isEmpty && l2.length > 20 then some l2 else firstDescLine rest

/-- The node loop of extract_description: every sticky note with truthy
content contributes at most one line. -/
def descriptionParts : List Json → Except String (List String)
  | [] => .ok []
  | n :: rest => do
    let t ← jGet n "type" .null
    if t == stickyType then
      let ps ← jGet n "parameters" (.obj [])
      let c ← jGet ps "content" (.str "")
      if pyTruthy c then
        let cs ← asStr c
        let part := firstDescLine (((splitOnChar '\n' cs.data).map
          (fun r => String.mk r)).take 3)
        let restP ← descriptionParts rest
        .ok (part.toList ++ restP)
      else descriptionParts rest
    else descriptionParts rest

/-- extract_description of single_scraper: the first two collected parts
joined by a spaced bar, or the empty string. -/
def extract_description (d : Json) : Except String String := do
  let ns ← getNodesList d
  let parts ← descriptionParts ns
  .ok (if parts.isEmpty then "" else String.intercalate " | " (parts.take 2))

/-- extract_metadata_from_workflow: the metadata record as the Python
dict literal builds it, fields evaluated in source order.  The wall
clock read by scraped_at is passed in as the now argument. -/
def extract_metadata_from_workflow (d : Json) (source_url now : String) :
    Except String Json := do
  let name ← jGet d "name" (.str "Untitled Workflow")
  let nc ← nodeCountOf d
  let cc ← connCountOf d
  let trig ← do anyTypeContains "trigger" (← getNodesList d)
  let creds ← do anyHasKey "credentials" (← getNodesList d)
  let ints ← extract_integrations d
  let cats := detect_categories d
  let cx ← calculate_complexity d
  let q ← calculate_quality_score d
  let desc ← extract_description d
  .ok (.obj
    [("workflow_name", name),
     ("scraped_at", .str now),
     ("source_url", .str source_url),
     ("node_count", .num nc),
     ("connection_count", .num cc),
     ("has_trigger", .bool trig),
     ("has_credentials", .bool creds),
     ("integrations", .arr (ints.map Json.str)),
     ("categories", .arr (cats.map Json.str)),
     ("complexity", .str cx),
     ("quality_score", .num q),
     ("description", .str desc)])

/-- Python dictionary item assignment: an existing key keeps its
position and gets the new value, a new key is appended. -/
def dictInsert (fs : List (String × Json)) (k : String) (v : Json) :
    List (String × Json) :=
  if fs.any (fun p => p.1 = k) then
    fs.map (fun p => if p.1 = k then (k, v) else p)
  else fs ++ [(k, v)]

/-- The enhanced_workflow dict literal of scrape_single_workflow: a
dictionary opened with the _metadata key, then the original workflow
fields spread over it in order, later assignments overriding earlier
ones as in a Python dict literal. -/
def enhancedFields (fs : List (String × Json)) (m : Json) :
    List (String × Json) :=
  fs.foldl (fun acc p => dictInsert acc p.1 p.2) [("_metadata", m)]

/-- The enhanced workflow document written to the store; the double-star
spread requires the original document to be a mapping. -/
def enhanced_workflow (wd m : Json) : Except String Json :=
  match wd with
  | .obj fs => .ok (.obj (enhancedFields fs m))
  | _ => .error "TypeError: argument after a double star must be a mapping"

end Scraper

/-! ## Index builder (scripts/generate_indexes.py) -/

namespace Indexes

open Json

/-- Python str() of a value interpolated into an f-string.  Containers
are approximated by their JSON serialization; no claim exercises that
branch. -/
def pyStr : Json → String
  | .str s => s
  | .num n => toString n
  | .bool true => "True"
  | .bool false => "False"
  | .null => "None"
  | j => dumps j

/-- The quality_score sort key of an entry dictionary: the integer under
the quality_score key and zero when the key is absent, as x.get with a
zero default reads it; Python booleans count as integers.  (The manifest
sort indexes the key directly, but manifest entries always carry it, so
the same reading applies.)  A non-integer score would make the Python
sort raise; the claims only exercise integer scores. -/
def entryQualityScore (e : Json) : Int :=
  match e with
  | .obj fs =>
    match lookupField fs "quality_score" with
    | some (.num n) => n
    | some (.bool b) => if b then 1 else 0
    | _ => 0
  | _ => 0

/-- Python list.sort with a key and reverse=True: the unique stable
descending reordering, realized by insertion sort with a non-strict
comparison (an element is placed before every later element of equal
key, which is exactly CPython stability). -/
def sortByQualityDesc (l : List Json) : List Json :=
  List.insertionSort (fun a b => entryQualityScore b ≤ entryQualityScore a) l

/-- An integer as Python comparison operators accept it (booleans
included); any other operand raises TypeError. -/
def asIntCmp : Json → Except String Int
  | .num n => .ok n
  | .bool b => .ok (if b then 1 else 0)
  | _ => .error "TypeError: comparison of int with non-int"

/-- One manifest entry, fields in source order with the source
defaults. -/
def manifestEntry (w : Json) : Except String Json := do
  let md ← jGet w "_metadata" (.obj [])
  let nm ← jGet md "workflow_name" (.str "Unknown")
  let desc ← jGet md "description" (.str "")
  let cats ← jGet md "categories" (.arr [])
  let ints ← jGet md "integrations" (.arr [])
  let cx ← jGet md "complexity" (.str "unknown")
  let qs ← jGet md "quality_score" (.num 0)
  let ncV ← jGet md "node_count" (.num 0)
  let ccV ← jGet md "connection_count" (.num 0)
  let sa ← jGet md "scraped_at" (.str "")
  let su ← jGet md "source_url" (.str "")
  .ok (.obj
    [("filename", .str (pyStr nm ++ ".json")),
     ("name", nm),
     ("description", desc),
     ("categories", cats),
     ("integrations", ints),
     ("complexity", cx),
     ("quality_score", qs),
     ("node_count", ncV),
     ("connection_count", ccV),
     ("scraped_at", sa),
     ("source_url", su)])

/-- generate_manifest: the workflows list of manifest.json, entries in
corpus order then stable-sorted by quality score descending.  The
wrapping object also records the clock and a count; the model keeps the
ranked list, which is what the claims are about. -/
def generate_manifest (ws : List Json) : Except String (List Json) := do
  let entries ← ws.mapM manifestEntry
  .ok (sortByQualityDesc entries)

/-- One quality-tier entry, fields in source order: the source builds it
without a quality_score field. -/
def qualityEntry (md : Json) : Except String Json := do
  let nm ← jGet md "workflow_name" (.str "Unknown")
  let desc ← jGet md "description" (.str "")
  let cats ← jGet md "categories" (.arr [])
  let cx ← jGet md "complexity" (.str "unknown")
  let ncV ← jGet md "node_count" (.num 0)
  .ok (.obj
    [("filename", .str (pyStr nm ++ ".json")),
     ("name", nm),
     ("description", desc),
     ("categories", cats),
     ("complexity", cx),
     ("node_count", ncV)])

/-- The four quality tier buckets. -/
structure QualityTiers where
  excellent : List Json
  good : List Json
  fair : List Json
  basic : List Json

/-- The bucketing loop of generate_quality_index, in corpus order. -/
def bucketWorkflows : List Json → Except String QualityTiers
  | [] => .ok ⟨[], [], [], []⟩
  | w :: rest => do
    let md ← jGet w "_metadata" (.obj [])
    let qsV ← jGet md "quality_score" (.num 0)
    let qs ← asIntCmp qsV
    let e ← qualityEntry md
    let ts ← bucketWorkflows rest
    if qs ≥ 80 then .ok { ts with excellent := e :: ts.excellent }
    else if qs ≥ 60 then .ok { ts with good := e :: ts.good }
    else if qs ≥ 40 then .ok { ts with fair := e :: ts.fair }
    else .ok { ts with basic := e :: ts.basic }

/-- generate_quality_index: bucket in corpus order, then sort each tier
with the key x.get of quality_score defaulting to zero, exactly as the
source does. -/
def generate_quality_index (ws : List Json) : Except String QualityTiers := do
  let ts ← bucketWorkflows ws
  .ok ⟨sortByQualityDesc ts.excellent, sortByQualityDesc ts.good,
       sortByQualityDesc ts.fair, sortByQualityDesc ts.basic⟩

end Indexes

/-! ## Semantic search (scripts/semantic_search.py) -/

namespace Semantic

/-- A word character of the default sklearn token pattern, restricted to
ASCII. -/
def isWordChar (c : Char) : Bool :=
  c.isAlpha || c.isDigit || c = '_'

/-- Maximal runs of word characters (the pieces between non-word
characters, empty pieces included). -/
def wordPieces : List Char → List (List Char)
  | [] => [[]]
  | c :: cs =>
    if isWordChar c then
      match wordPieces cs with
      | [] => [[c]]
      | r :: rs => (c :: r) :: rs
    else [] :: wordPieces cs

/-- The default TfidfVectorizer tokenization: lower-case, maximal runs
of word characters, keep only runs of length at least two. -/
def tokenize (s : String) : List String :=
  ((wordPieces (s.data.map Char.toLower)).filter
    (fun r => r.length ≥ 2)).map (fun r => String.mk r)

/-- Occurrences of a term in a token list. -/
def countTok (toks : List String) (t : String) : Nat :=
  (toks.filter (fun x => x = t)).length

/-- The vectorizer transform on a token list: one coordinate per
vocabulary term, raw count times idf weight.  A token outside the
vocabulary has no coordinate and is silently dropped.  The final L2
normalization of TfidfVectorizer scales the query vector by a positive
constant, which cosine similarity ignores, so the model omits it. -/
def transformTokens (vocab : List String) (idf : List ℚ) (toks : List String) :
    List ℚ :=
  (vocab.zip idf).map (fun p => (countTok toks p.1 : ℚ) * p.2)

/-- Dot product of two rational vectors. -/
def dot (x y : List ℚ) : ℚ :=
  ((x.zip y).map (fun p => p.1 * p.2)).sum

/-- Cosine similarity represented by its square.  Tfidf vectors are
componentwise nonnegative, so every cosine here lies in the unit
interval and squaring is a strictly monotone recoding that keeps the
value rational; comparisons and ties are exactly those of the cosine.
A zero vector gets similarity zero, as sklearn cosine_similarity
produces. -/
def cosSq (x y : List ℚ) : ℚ :=
  let nx := dot x x
  let ny := dot y y
  if nx = 0 ∨ ny = 0 then 0 else dot x y * dot x y / (nx * ny)

/-- The comparison underlying a stable ascending argsort: by similarity,
ties by position. -/
def argRel (sims : List ℚ) (i j : Nat) : Prop :=
  sims.getD i 0 < sims.getD j 0 ∨ (sims.getD i 0 = sims.getD j 0 ∧ i ≤ j)

instance (sims : List ℚ) : DecidableRel (argRel sims) := fun _ _ =>
  inferInstanceAs (Decidable (_ ∨ _))

instance (sims : List ℚ) : IsTotal Nat (argRel sims) :=
  ⟨fun i j => by
    unfold argRel
    rcases lt_trichotomy (sims.getD i 0) (sims.getD j 0) with h | h | h
    · exact Or.inl (Or.inl h)
    · rcases Nat.le_total i j with hij | hij
      · exact Or.inl (Or.inr ⟨h, hij⟩)
      · exact Or.inr (Or.inr ⟨h.symm, hij⟩)
    · exact Or.inr (Or.inl h)⟩

instance (sims : List ℚ) : IsTrans Nat (argRel sims) :=
  ⟨fun i j k hij hjk => by
    unfold argRel at *
    rcases hij with h1 | ⟨e1, l1⟩
    · rcases hjk with h2 | ⟨e2, _⟩
      · exact Or.inl (h1.trans h2)
      · exact Or.inl (e2 ▸ h1)
    · rcases hjk with h2 | ⟨e2, l2⟩
      · exact Or.inl (e1 ▸ h2)
      · exact Or.inr ⟨e1.trans e2, l1.trans l2⟩⟩

/-- The np.argsort of the similarity row: indices in ascending
similarity order.  numpy does not promise stability for its default
sort; the model fixes the deterministic stable reading (ties in index
order), the reading under which the specification states its
tie-break. -/
def argsort (sims : List ℚ) : List Nat :=
  List.insertionSort (argRel sims) (List.range sims.length)

/-- One row of embeddings.jsonl. -/
structure EmbeddingItem where
  workflow_id : String
  filename : String
  search_text : String
  embedding : List ℚ
  deriving DecidableEq

instance : Inhabited EmbeddingItem := ⟨⟨"", "", "", []⟩⟩

/-- The loaded search state: the fitted vectorizer (vocabulary and idf
row), the workflow_ids name mapping, and the embeddings corpus in file
order. -/
structure SemanticIndex where
  vocab : List String
  idf : List ℚ
  names : List (String × String)
  items : List EmbeddingItem

/-- One formatted search result. -/
structure SearchResult where
  rank : Nat
  score : ℚ
  workflow_id : String
  filename : String
  name : String
  search_text : String
  deriving DecidableEq

/-- The workflow_ids.get name lookup with the Unknown default. -/
def lookupName (names : List (String × String)) (id : String) : String :=
  ((names.find? (fun p => p.1 = id)).map Prod.snd).getD "Unknown"

/-- The 200-character search text truncation of the result formatter. -/
def truncText (s : String) : String :=
  if s.length > 200 then s.take 200 ++ "..." else s

/-- The selected document positions of search: descending argsort
prefix. -/
def searchIndices (sims : List ℚ) (top_k : Nat) : List Nat :=
  ((argsort sims).reverse).take top_k

/-- The result formatting loop shared by search and find_similar. -/
def mkResults (S : SemanticIndex) (sims : List ℚ) (idxs : List Nat) :
    List SearchResult :=
  idxs.enum.map (fun p =>
    let it := S.items.getD p.2 default
    { rank := p.1 + 1, score := sims.getD p.2 0, workflow_id := it.workflow_id,
      filename := it.filename, name := lookupName S.names it.workflow_id,
      search_text := truncText it.search_text })

/-- The similarity row of a query against the whole corpus. -/
def searchSims (S : SemanticIndex) (query : String) : List ℚ :=
  let q := transformTokens S.vocab S.idf (tokenize query)
  S.items.map (fun it => cosSq q it.embedding)

/-- SemanticSearch.search: transform the query, compute the similarity
row against the whole corpus, return the top_k documents by descending
similarity. -/
def SemanticIndex.search (S : SemanticIndex) (query : String) (top_k : Nat) :
    List SearchResult :=
  let sims := searchSims S query
  mkResults S sims (searchIndices sims top_k)

/-- The similarity row of the document at a corpus position against the
whole corpus. -/
def similarSims (S : SemanticIndex) (i0 : Nat) : List ℚ :=
  S.items.map (fun it => cosSq (S.items.getD i0 default).embedding it.embedding)

/-- SemanticSearch.find_similar: locate the first corpus row with the
given workflow id (an unknown id returns the empty list), use its own
embedding as the query, and keep the descending ranking positions one
through top_k, dropping position zero. -/
def SemanticIndex.find_similar (S : SemanticIndex) (workflow_id : String)
    (top_k : Nat) : List SearchResult :=
  match S.items.findIdx? (fun it => it.workflow_id = workflow_id) with
  | none => []
  | some i0 =>
    let sims := similarSims S i0
    mkResults S sims ((((argsort sims).reverse).drop 1).take top_k)

end Semantic

/-! ## Hybrid search endpoint (scripts/api.py) -/

namespace Api

open Semantic

/-- The pydantic response model built by create_workflow_response. -/
structure WorkflowResponse where
  workflow_id : String
  name : String
  filename : String
  description : Option String
  quality_score : Option Int
  categories : List String
  integrations : List String
  node_count : Option Nat
  connection_count : Option Nat
  complexity : Option String
  deriving DecidableEq

/-- An element of the combined result stream of the hybrid branch:
semantic results are plain dictionaries, keyword results are
WorkflowResponse model instances. -/
inductive HybridItem where
  | sem (r : SearchResult)
  | kw (r : WorkflowResponse)
  deriving DecidableEq

/-- The deduplication key read: result.get succeeds on a semantic result
dictionary (whose workflow_id key is always present), while a pydantic
WorkflowResponse has no get method, so the read raises
AttributeError. -/
def hybridKey : HybridItem → Except String String
  | .sem r => .ok r.workflow_id
  | .kw _ => .error "AttributeError: WorkflowResponse object has no attribute get"

/-- The combine-and-deduplicate loop over the concatenated result
stream: an insertion-ordered dictionary keyed by the deduplication key,
first occurrence winning. -/
def hybridMerge : List HybridItem → List (String × HybridItem) →
    Except String (List (String × HybridItem))
  | [], acc => .ok acc
  | it :: rest, acc => do
    let k ← hybridKey it
    if acc.any (fun p => p.1 = k) then hybridMerge rest acc
    else hybridMerge rest (acc ++ [(k, it)])

/-- The hybrid branch of search_workflows: run each searcher with half
the limit (Python floor division), merge with deduplication, truncate to
the limit.  The two searchers are passed in as functions of their
limit argument. -/
def hybrid_search (semS : Nat → List SearchResult)
    (kwS : Nat → List WorkflowResponse) (limit : Nat) :
    Except String (List HybridItem) := do
  let semR := semS (limit / 2)
  let kwR := kwS (limit / 2)
  let combined ← hybridMerge (semR.map .sem ++ kwR.map .kw) []
  .ok ((combined.map Prod.snd).take limit)

end Api

/-! ## Shape conditions under which the metadata extractor is total -/

namespace Scraper

open Json

/-- A field that is either absent or bound to a string. -/
def strOrAbsent (fs : List (String × Json)) (k : String) : Bool :=
  match lookupField fs k with
  | none => true
  | some (.str _) => true
  | some _ => false

/-- A node of ordinary shape: a dictionary whose type and name fields,
when present, are strings, and whose parameters field, when present, is
a dictionary with a string-or-absent content field. -/
def goodNode : Json → Bool
  | .obj fs =>
    strOrAbsent fs "type" && strOrAbsent fs "name" &&
      (match lookupField fs "parameters" with
       | none => true
       | some (.obj pfs) => strOrAbsent pfs "content"
       | some _ => false)
  | _ => false

/-- A workflow document of ordinary shape: a dictionary whose nodes
field, when present, is a list of ordinary nodes, and whose connections
field, when present, is a dictionary. -/
def wellShaped : Json → Bool
  | .obj fs =>
    (match lookupField fs "nodes" with
     | none => true
     | some (.arr ns) => ns.all goodNode
     | some _ => false) &&
      (match lookupField fs "connections" with
       | none => true
       | some (.obj _) => true
       | some _ => false)
  | _ => false

end Scraper

/-! ## Concrete documents exercising the claims -/

namespace Examples

open Json

/-- A raw workflow whose connections field is a number: len raises on
it. -/
def badConnDoc : Json :=
  .obj [("connections", .num 5)]

/-- A small ordinary workflow document. -/
def okDoc : Json :=
  .obj
    [("name", .str "My Flow"),
     ("nodes", .arr
       [.obj [("type", .str "n8n-nodes-base.gmailTrigger"),
              ("name", .str "Gmail Trigger"),
              ("credentials", .obj [("gmailOAuth2", .str "acct")])]]),
     ("connections", .obj [("Gmail Trigger", .obj [])])]

/-- Five anonymous nodes and no connections: complexity score exactly
five. -/
def fiveNodeDoc : Json :=
  .obj [("nodes", .arr (List.replicate 5 (.obj []))), ("connections", .obj [])]

/-- A stored workflow whose metadata carries quality score 85. -/
def storedA : Json :=
  .obj [("_metadata", .obj
    [("workflow_name", .str "A"), ("quality_score", .num 85)])]

/-- A stored workflow whose metadata carries quality score 95. -/
def storedB : Json :=
  .obj [("_metadata", .obj
    [("workflow_name", .str "B"), ("quality_score", .num 95)])]

/-- The quality-tier entry the index builder derives from storedA. -/
def tierEntryA : Json :=
  .obj
    [("filename", .str "A.json"), ("name", .str "A"), ("description", .str ""),
     ("categories", .arr []), ("complexity", .str "unknown"),
     ("node_count", .num 0)]

/-- The quality-tier entry the index builder derives from storedB. -/
def tierEntryB : Json :=
  .obj
    [("filename", .str "B.json"), ("name", .str "B"), ("description", .str ""),
     ("categories", .arr []), ("complexity", .str "unknown"),
     ("node_count", .num 0)]

end Examples

/-! ## Concrete search fixtures -/

namespace Examples

/-- A semantic result dictionary for document A. -/
def semA : Semantic.SearchResult :=
  { rank := 1, score := 1, workflow_id := "A", filename := "a.json",
    name := "A", search_text := "ta" }

/-- A semantic result dictionary for document B. -/
def semB : Semantic.SearchResult :=
  { rank := 2, score := 1, workflow_id := "B", filename := "b.json",
    name := "B", search_text := "tb" }

/-- A keyword result model instance for document B. -/
def kwB : Api.WorkflowResponse :=
  { workflow_id := "B", name := "B", filename := "b.json",
    description := none, quality_score := none, categories := [],
    integrations := [], node_count := none, connection_count := none,
    complexity := none }

/-- A keyword result model instance for document C. -/
def kwC : Api.WorkflowResponse :=
  { workflow_id := "C", name := "C", filename := "c.json",
    description := none, quality_score := none, categories := [],
    integrations := [], node_count := none, connection_count := none,
    complexity := none }

/-- A fitted corpus of two documents with identical embeddings. -/
def dupIndex : Semantic.SemanticIndex :=
  { vocab := ["email"], idf := [1], names := [],
    items := [⟨"A", "a.json", "ta", [1]⟩, ⟨"B", "b.json", "tb", [1]⟩] }

/-- A fitted corpus of two documents with orthogonal embeddings. -/
def twoIndex : Semantic.SemanticIndex :=
  { vocab := ["email"], idf := [1], names := [],
    items := [⟨"A", "a.json", "ta", [1]⟩, ⟨"B", "b.json", "tb", [0]⟩] }

end Examples

/-! ## Helper lemmas -/

theorem exc_bind_ok {α β : Type} (a : α) (f : α → Except String β) :
    (Except.ok a >>= f : Except String β) = f a := rfl

theorem exc_bind_ok_eq {α β : Type} {m : Except String α} {a : α}
    (h : m = .ok a) (f : α → Except String β) :
    (m >>= f : Except String β) = f a := by
  subst h
  rfl

/-! ## C7: category extraction -/

/-- C7: for every document the category list is non-empty; when some
category pattern matches the lower-cased serialized document the result
is exactly the matching categories, and otherwise it is exactly the
general singleton; membership in the matched categories is equivalent to
one of the category keywords occurring in the lower-cased serialized
document. -/
theorem detect_categories_exact (d : Json) :
    Scraper.detect_categories d ≠ [] ∧
    (Scraper.matchedCategories d ≠ [] →
      Scraper.detect_categories d = Scraper.matchedCategories d) ∧
    (Scraper.matchedCategories d = [] →
      Scraper.detect_categories d = ["general"]) ∧
    (∀ c, c ∈ Scraper.matchedCategories d ↔
      ∃ pats, (c, pats) ∈ Scraper.category_patterns ∧
        pats.any (fun pat =>
          Json.strContains (Json.lowerStr (Json.dumps d)) pat) = true) := by
  refine ⟨?_, ?_, ?_, ?_⟩
  · unfold Scraper.detect_categories
    by_cases h : (Scraper.matchedCategories d).isEmpty <;> simp [h]
    simpa [List.isEmpty_iff] using h
  · intro h
    unfold Scraper.detect_categories
    simp [List.isEmpty_iff, h]
  · intro h
    unfold Scraper.detect_categories
    simp [List.isEmpty_iff, h]
  · intro c
    unfold Scraper.matchedCategories
    constructor
    · intro hc
      rcases List.mem_map.mp hc with ⟨⟨c', pats⟩, hmem, rfl⟩
      rcases List.mem_filter.mp hmem with ⟨hin, hf⟩
      exact ⟨pats, hin, hf⟩
    · rintro ⟨pats, hin, hf⟩
      exact List.mem_map.mpr ⟨(c, pats), List.mem_filter.mpr ⟨hin, hf⟩, rfl⟩

/-- Witness for C7 at a document matching nothing: the general
fallback. -/
theorem detect_categories_exact_witness :
    Scraper.detect_categories (Json.obj []) = ["general"] :=
  (detect_categories_exact (Json.obj [])).2.2.1 (by decide)

/-! ## C1: quality score -/

/-- The weighted sum of six checks never exceeds one hundred. -/
theorem qualitySum_le_100 (a1 a2 a3 a4 a5 a6 : Bool) :
    Scraper.qualitySum a1 a2 a3 a4 a5 a6 ≤ 100 := by
  cases a1 <;> cases a2 <;> cases a3 <;> cases a4 <;> cases a5 <;> cases a6 <;> decide

/-- C1: the quality score is the weighted sum of the six checks (the min
against one hundred never truncates since the weights sum to exactly one
hundred), hence an integer between zero and one hundred, and flipping
exactly one check changes the sum by exactly the weight of that check
(30, 20, 15, 10, 15, 10 in source order). -/
theorem quality_score_weighted_sum (d : Json) (b1 b2 b4 : Bool)
    (h1 : Scraper.has_documentation d = .ok b1)
    (h2 : Scraper.uses_proper_credentials d = .ok b2)
    (h4 : Scraper.is_well_organized d = .ok b4) :
    Scraper.calculate_quality_score d =
      .ok (Scraper.qualitySum b1 b2 (Scraper.has_error_handling d) b4
        (Scraper.has_modern_integrations d) (Scraper.is_parameterized d)) ∧
    (∀ a1 a2 a3 a4 a5 a6 : Bool, Scraper.qualitySum a1 a2 a3 a4 a5 a6 ≤ 100) ∧
    (∀ a1 a2 a3 a4 a5 a6 : Bool,
      ((Scraper.qualitySum (!a1) a2 a3 a4 a5 a6 : ℤ) -
        (Scraper.qualitySum a1 a2 a3 a4 a5 a6 : ℤ)).natAbs = 30 ∧
      ((Scraper.qualitySum a1 (!a2) a3 a4 a5 a6 : ℤ) -
        (Scraper.qualitySum a1 a2 a3 a4 a5 a6 : ℤ)).natAbs = 20 ∧
      ((Scraper.qualitySum a1 a2 (!a3) a4 a5 a6 : ℤ) -
        (Scraper.qualitySum a1 a2 a3 a4 a5 a6 : ℤ)).natAbs = 15 ∧
      ((Scraper.qualitySum a1 a2 a3 (!a4) a5 a6 : ℤ) -
        (Scraper.qualitySum a1 a2 a3 a4 a5 a6 : ℤ)).natAbs = 10 ∧
      ((Scraper.qualitySum a1 a2 a3 a4 (!a5) a6 : ℤ) -
        (Scraper.qualitySum a1 a2 a3 a4 a5 a6 : ℤ)).natAbs = 15 ∧
      ((Scraper.qualitySum a1 a2 a3 a4 a5 (!a6) : ℤ) -
        (Scraper.qualitySum a1 a2 a3 a4 a5 a6 : ℤ)).natAbs = 10) := by
  refine ⟨?_, qualitySum_le_100, ?_⟩
  · unfold Scraper.calculate_quality_score
    rw [exc_bind_ok_eq h1, exc_bind_ok_eq h2, exc_bind_ok_eq h4]
    exact congrArg Except.ok (Nat.min_eq_left (qualitySum_le_100 _ _ _ _ _ _))
  · intro a1 a2 a3 a4 a5 a6
    cases a1 <;> cases a2 <;> cases a3 <;> cases a4 <;> cases a5 <;> cases a6 <;>
      exact ⟨rfl, rfl, rfl, rfl, rfl, rfl⟩

/-- Witness for C1 at the empty document: every check evaluates, the
score is the weighted sum 0+0+0+10+0+0. -/
theorem quality_score_weighted_sum_witness :
    Scraper.calculate_quality_score (Json.obj []) =
      .ok (Scraper.qualitySum false false
        (Scraper.has_error_handling (Json.obj [])) true
        (Scraper.has_modern_integrations (Json.obj []))
        (Scraper.is_parameterized (Json.obj []))) :=
  (quality_score_weighted_sum (Json.obj []) false false true rfl rfl rfl).1

/-! ## C6: complexity tiers -/

/-- The doubled integer score represents the rational score exactly. -/
theorem complexityScore2_eq (nc cc : Nat) (hIf hLoop : Bool) :
    (Scraper.complexityScore2 nc cc hIf hLoop : ℚ) =
      2 * Scraper.complexityScore nc cc hIf hLoop := by
  unfold Scraper.complexityScore Scraper.complexityScore2
  cases hIf <;> cases hLoop <;> push_cast <;> ring_nf <;> norm_num [mul_comm]

/-- The threshold tests of the doubled score agree with those of the
rational score. -/
theorem complexityScore2_spec (nc cc : Nat) (hIf hLoop : Bool) :
    (Scraper.complexityScore2 nc cc hIf hLoop ≤ 10 ↔
      Scraper.complexityScore nc cc hIf hLoop ≤ 5) ∧
    (Scraper.complexityScore2 nc cc hIf hLoop ≤ 30 ↔
      Scraper.complexityScore nc cc hIf hLoop ≤ 15) := by
  have key := complexityScore2_eq nc cc hIf hLoop
  constructor
  · rw [← Nat.cast_le (α := ℚ), key]
    push_cast
    constructor <;> intro h <;> linarith
  · rw [← Nat.cast_le (α := ℚ), key]
    push_cast
    constructor <;> intro h <;> linarith

/-- C6: the complexity tier is determined by the score node_count plus
half the connection count plus three for a conditional node type and
five for a loop node type; scores up to five are beginner, up to fifteen
intermediate, above that advanced, and the boundary scores five and
fifteen fall to the lower tier. -/
theorem calculate_complexity_tiers (d : Json) (nc cc : Nat) (hIf hLoop : Bool)
    (h1 : Scraper.nodeCountOf d = .ok nc) (h2 : Scraper.connCountOf d = .ok cc)
    (h3 : Scraper.hasCondNodes d = .ok hIf)
    (h4 : Scraper.hasLoopNodes d = .ok hLoop) :
    Scraper.calculate_complexity d = .ok
      (if Scraper.complexityScore nc cc hIf hLoop ≤ 5 then "beginner"
       else if Scraper.complexityScore nc cc hIf hLoop ≤ 15 then "intermediate"
       else "advanced") ∧
    (Scraper.complexityScore nc cc hIf hLoop = 5 →
      Scraper.calculate_complexity d = .ok "beginner") ∧
    (Scraper.complexityScore nc cc hIf hLoop = 15 →
      Scraper.calculate_complexity d = .ok "intermediate") := by
  have hs := complexityScore2_spec nc cc hIf hLoop
  have main : Scraper.calculate_complexity d = .ok
      (if Scraper.complexityScore nc cc hIf hLoop ≤ 5 then "beginner"
       else if Scraper.complexityScore nc cc hIf hLoop ≤ 15 then "intermediate"
       else "advanced") := by
    unfold Scraper.calculate_complexity
    rw [exc_bind_ok_eq h1, exc_bind_ok_eq h2, exc_bind_ok_eq h3,
      exc_bind_ok_eq h4]
    show (if Scraper.complexityScore2 nc cc hIf hLoop ≤ 10 then
        Except.ok "beginner"
      else if Scraper.complexityScore2 nc cc hIf hLoop ≤ 30 then
        Except.ok "intermediate"
      else Except.ok "advanced") = _
    rw [if_congr hs.1 rfl rfl, if_congr hs.2 rfl rfl]
    split
    · rfl
    · split <;> rfl
  refine ⟨main, ?_, ?_⟩
  · intro h5
    rw [main, if_pos (le_of_eq h5)]
  · intro h15
    rw [main, if_neg (by rw [h15]; norm_num), if_pos (le_of_eq h15)]

/-- Witness for C6 at a five-node document: the score is exactly five
and the tie falls to beginner. -/
theorem calculate_complexity_tiers_witness :
    Scraper.calculate_complexity Examples.fiveNodeDoc = .ok "beginner" :=
  (calculate_complexity_tiers Examples.fiveNodeDoc 5 0 false false
    rfl rfl rfl rfl).2.1 (by norm_num [Scraper.complexityScore])

/-! ## C8 and C10: the enhanced-workflow dictionary merge -/

theorem lookupField_append (l1 l2 : List (String × Json)) (k : String) :
    Json.lookupField (l1 ++ l2) k =
      (Json.lookupField l1 k).or (Json.lookupField l2 k) := by
  induction l1 with
  | nil => simp [Json.lookupField]
  | cons p rest ih =>
    rcases p with ⟨k1, v1⟩
    by_cases h : k1 = k <;> simp [Json.lookupField, h, ih]

theorem lookupField_isSome_iff (fs : List (String × Json)) (k : String) :
    (Json.lookupField fs k).isSome = true ↔ k ∈ fs.map Prod.fst := by
  induction fs with
  | nil => simp [Json.lookupField]
  | cons p rest ih =>
    rcases p with ⟨k1, v1⟩
    rw [Json.lookupField]
    by_cases h : k1 = k
    · subst h
      simp
    · rw [if_neg h]
      simp only [List.map, List.mem_cons]
      rw [ih]
      constructor
      · exact Or.inr
      · rintro (rfl | hm)
        · exact absurd rfl h
        · exact hm

theorem mem_of_lookupField_eq_some {fs : List (String × Json)} {k : String}
    {v : Json} (h : Json.lookupField fs k = some v) : (k, v) ∈ fs := by
  induction fs with
  | nil => simp [Json.lookupField] at h
  | cons p rest ih =>
    rcases p with ⟨k1, v1⟩
    by_cases hk : k1 = k
    · subst hk
      rw [Json.lookupField, if_pos rfl] at h
      cases h
      exact List.mem_cons_self _ _
    · rw [Json.lookupField, if_neg hk] at h
      exact List.mem_cons_of_mem _ (ih h)

theorem lookupField_eq_some_of_mem_nodup {fs : List (String × Json)}
    {k : String} {v : Json} (hnd : (fs.map Prod.fst).Nodup)
    (hmem : (k, v) ∈ fs) : Json.lookupField fs k = some v := by
  induction fs with
  | nil => simp at hmem
  | cons p rest ih =>
    rcases p with ⟨k1, v1⟩
    rcases List.mem_cons.mp hmem with heq | htail
    · cases heq
      simp [Json.lookupField]
    · have hk1 : k1 ≠ k := by
        intro hk
        subst hk
        have : k1 ∈ rest.map Prod.fst :=
          List.mem_map.mpr ⟨(k1, v), htail, rfl⟩
        exact (List.nodup_cons.mp hnd).1 this
      rw [Json.lookupField, if_neg hk1]
      exact ih (List.nodup_cons.mp hnd).2 htail

theorem lookupField_map_replace_ne {fs : List (String × Json)} {k k' : String}
    {v : Json} (h : k' ≠ k) :
    Json.lookupField (fs.map (fun p => if p.1 = k then (k, v) else p)) k' =
      Json.lookupField fs k' := by
  induction fs with
  | nil => rfl
  | cons p rest ih =>
    rcases p with ⟨k1, v1⟩
    by_cases h1 : k1 = k
    · subst h1
      simp only [List.map, if_pos rfl]
      rw [Json.lookupField, if_neg (fun hh => h hh.symm), ih,
        Json.lookupField, if_neg (fun hh => h hh.symm)]
    · simp only [List.map, if_neg h1]
      by_cases h2 : k1 = k'
      · subst h2
        rw [Json.lookupField, if_pos rfl, Json.lookupField, if_pos rfl]
      · rw [Json.lookupField, if_neg h2, ih, Json.lookupField, if_neg h2]

theorem lookupField_map_replace_eq {fs : List (String × Json)} {k : String}
    {v : Json} (hmem : fs.any (fun p => p.1 = k)) :
    Json.lookupField (fs.map (fun p => if p.1 = k then (k, v) else p)) k =
      some v := by
  induction fs with
  | nil => simp at hmem
  | cons p rest ih =>
    rcases p with ⟨k1, v1⟩
    by_cases h1 : k1 = k
    · subst h1
      rw [List.map_cons, if_pos rfl, Json.lookupField, if_pos rfl]
    · simp only [List.map, if_neg h1]
      rw [Json.lookupField, if_neg h1]
      refine ih ?_
      simpa [h1] using hmem

theorem lookup_dictInsert (fs : List (String × Json)) (k k' : String)
    (v : Json) :
    Json.lookupField (Scraper.dictInsert fs k v) k' =
      if k' = k then some v else Json.lookupField fs k' := by
  unfold Scraper.dictInsert
  by_cases hc : fs.any (fun p => p.1 = k)
  · rw [if_pos hc]
    by_cases hk : k' = k
    · subst hk
      rw [if_pos rfl, lookupField_map_replace_eq hc]
    · rw [if_neg hk, lookupField_map_replace_ne hk]
  · rw [if_neg hc, lookupField_append]
    by_cases hk : k' = k
    · subst hk
      have : Json.lookupField fs k' = none := by
        cases h : Json.lookupField fs k' with
        | none => rfl
        | some w =>
          exact absurd (List.any_eq_true.mpr
            ⟨(k', w), mem_of_lookupField_eq_some h, by simp⟩) hc
      rw [this, if_pos rfl]
      simp [Json.lookupField]
    · rw [if_neg hk]
      cases h : Json.lookupField fs k' with
      | none => simp [Json.lookupField, Option.or, Ne.symm hk]
      | some w => simp [Option.or]

theorem lookup_enhanced_foldl (fs : List (String × Json))
    (acc : List (String × Json)) (k : String) :
    Json.lookupField
        (fs.foldl (fun a p => Scraper.dictInsert a p.1 p.2) acc) k =
      (Json.lookupField fs.reverse k).or (Json.lookupField acc k) := by
  induction fs generalizing acc with
  | nil => simp [Json.lookupField]
  | cons p rest ih =>
    rcases p with ⟨k1, v1⟩
    rw [List.foldl_cons, ih, List.reverse_cons, lookupField_append,
      lookup_dictInsert]
    cases h : Json.lookupField rest.reverse k with
    | some w => simp [Option.or]
    | none =>
      by_cases hk : k = k1
      · subst hk
        simp [Option.or, Json.lookupField]
      · simp [Option.or, Json.lookupField, hk, Ne.symm hk]

theorem strAppend_assoc (s t u : String) : s ++ t ++ u = s ++ (t ++ u) := by
  rcases s with ⟨l1⟩
  rcases t with ⟨l2⟩
  rcases u with ⟨l3⟩
  show String.mk (l1 ++ l2 ++ l3) = String.mk (l1 ++ (l2 ++ l3))
  rw [List.append_assoc]

theorem strAppend_empty (s : String) : s ++ "" = s := by
  rcases s with ⟨l⟩
  show String.mk (l ++ []) = String.mk l
  rw [List.append_nil]

theorem enhanced_foldl_append (fs : List (String × Json)) :
    ∀ acc : List (String × Json),
      (∀ p ∈ fs, ∀ q ∈ acc, Prod.fst q ≠ Prod.fst p) →
      (fs.map Prod.fst).Nodup →
      fs.foldl (fun a p => Scraper.dictInsert a p.1 p.2) acc = acc ++ fs := by
  induction fs with
  | nil =>
    intro acc _ _
    simp
  | cons p rest ih =>
    intro acc hdisj hnd
    rcases p with ⟨k1, v1⟩
    have hins : Scraper.dictInsert acc k1 v1 = acc ++ [(k1, v1)] := by
      unfold Scraper.dictInsert
      rw [if_neg]
      intro hany
      rcases List.any_eq_true.mp hany with ⟨q, hq, he⟩
      exact hdisj (k1, v1) (List.mem_cons_self _ _) q hq (by simpa using he)
    rw [List.foldl_cons, hins, ih (acc ++ [(k1, v1)]) ?_ ?_,
      List.append_assoc]
    · rfl
    · intro p hp q hq
      rcases List.mem_append.mp hq with hqa | hqs
      · exact hdisj p (List.mem_cons_of_mem _ hp) q hqa
      · have hq1 : q = (k1, v1) := by simpa using hqs
        subst hq1
        intro he
        exact (List.nodup_cons.mp (by simpa using hnd)).1
          (List.mem_map.mpr ⟨p, hp, he.symm⟩)
    · exact (List.nodup_cons.mp (by simpa using hnd)).2

/-- C8: the enhanced document keeps every original top-level field with
its original value (the original _metadata value included), contains no
keys beyond the original ones plus _metadata, and when the original has
no _metadata key the enhanced field list is literally the _metadata
record followed by the unchanged original fields, whose serialized form
is the metadata rendering followed by the unchanged original rendering
(write plus re-read is value-faithful, and the serializer is a function
of the value, so unchanged values re-serialize to unchanged bytes). -/
theorem enhanced_workflow_frame (fs : List (String × Json)) (m : Json)
    (hnd : (fs.map Prod.fst).Nodup) :
    Scraper.enhanced_workflow (Json.obj fs) m =
      .ok (.obj (Scraper.enhancedFields fs m)) ∧
    (∀ k v, (k, v) ∈ fs →
      Json.lookupField (Scraper.enhancedFields fs m) k = some v) ∧
    (∀ k, (Json.lookupField (Scraper.enhancedFields fs m) k).isSome = true ↔
      (k = "_metadata" ∨ k ∈ fs.map Prod.fst)) ∧
    ("_metadata" ∉ fs.map Prod.fst →
      Scraper.enhancedFields fs m = ("_metadata", m) :: fs) ∧
    ("_metadata" ∉ fs.map Prod.fst →
      Json.dumpsObj (Scraper.enhancedFields fs m) =
        Json.dumpsStr "_metadata" ++ ": " ++ Json.dumps m ++
          (if fs.isEmpty then "" else ", " ++ Json.dumpsObj fs)) := by
  have hstruct : "_metadata" ∉ fs.map Prod.fst →
      Scraper.enhancedFields fs m = ("_metadata", m) :: fs := by
    intro hnm
    unfold Scraper.enhancedFields
    rw [enhanced_foldl_append fs [("_metadata", m)] ?_ hnd]
    · rfl
    · intro p hp q hq
      have hq1 : q = ("_metadata", m) := by simpa using hq
      subst hq1
      intro he
      exact hnm (List.mem_map.mpr ⟨p, hp, he.symm⟩)
  refine ⟨rfl, ?_, ?_, hstruct, ?_⟩
  · intro k v hmem
    have hrevnd : (fs.reverse.map Prod.fst).Nodup := by
      rw [List.map_reverse]
      exact List.nodup_reverse.mpr hnd
    have hrev : Json.lookupField fs.reverse k = some v :=
      lookupField_eq_some_of_mem_nodup hrevnd (List.mem_reverse.mpr hmem)
    unfold Scraper.enhancedFields
    rw [lookup_enhanced_foldl, hrev]
    rfl
  · intro k
    unfold Scraper.enhancedFields
    rw [lookup_enhanced_foldl, Option.isSome_or]
    have h1 : (Json.lookupField fs.reverse k).isSome = true ↔
        k ∈ fs.map Prod.fst := by
      rw [lookupField_isSome_iff, List.map_reverse, List.mem_reverse]
    have h2 : (Json.lookupField [("_metadata", m)] k).isSome = true ↔
        k = "_metadata" := by
      unfold Json.lookupField
      by_cases h : "_metadata" = k
      · subst h
        simp
      · rw [if_neg h]
        simp [Json.lookupField, Ne.symm h]
    constructor
    · intro h
      rcases Bool.or_eq_true_iff.mp h with h | h
      · exact Or.inr (h1.mp h)
      · exact Or.inl (h2.mp h)
    · intro h
      rcases h with h | h
      · exact Bool.or_eq_true_iff.mpr (Or.inr (h2.mpr h))
      · exact Bool.or_eq_true_iff.mpr (Or.inl (h1.mpr h))
  · intro hnm
    rw [hstruct hnm]
    cases fs with
    | nil =>
      show Json.dumpsObj [("_metadata", m)] =
        Json.dumpsStr "_metadata" ++ ": " ++ Json.dumps m ++ ""
      exact (strAppend_empty _).symm
    | cons p rest =>
      show Json.dumpsObj (("_metadata", m) :: p :: rest) =
        Json.dumpsStr "_metadata" ++ ": " ++ Json.dumps m ++
          (", " ++ Json.dumpsObj (p :: rest))
      exact strAppend_assoc _ _ _

/-- Witness for C8 at the small ordinary workflow: its nodes field
survives the merge unchanged. -/
theorem enhanced_workflow_frame_witness :
    Json.lookupField
        (Scraper.enhancedFields
          [("name", Json.str "f"), ("nodes", Json.arr []),
           ("connections", Json.obj [])] (Json.str "meta")) "nodes" =
      some (Json.arr []) :=
  (enhanced_workflow_frame
    [("name", Json.str "f"), ("nodes", Json.arr []),
     ("connections", Json.obj [])] (Json.str "meta") (by decide)).2.1
    "nodes" (Json.arr [])
    (List.mem_cons_of_mem _ (List.mem_cons_self _ _))

/-- C10: when the raw document already has a top-level _metadata field,
the merged document keeps the raw value under _metadata: the freshly
extracted record m is discarded whenever it differs from that value. -/
theorem enhanced_keeps_original_metadata (fs : List (String × Json))
    (m v : Json) (hnd : (fs.map Prod.fst).Nodup)
    (hv : Json.lookupField fs "_metadata" = some v) :
    Json.lookupField (Scraper.enhancedFields fs m) "_metadata" = some v := by
  have hmem := mem_of_lookupField_eq_some hv
  have hrevnd : (fs.reverse.map Prod.fst).Nodup := by
    rw [List.map_reverse]
    exact List.nodup_reverse.mpr hnd
  have hrev : Json.lookupField fs.reverse "_metadata" = some v :=
    lookupField_eq_some_of_mem_nodup hrevnd (List.mem_reverse.mpr hmem)
  unfold Scraper.enhancedFields
  rw [lookup_enhanced_foldl, hrev]
  rfl

/-- Witness for C10: a raw document carrying _metadata keeps it; the
fresh record is not stored. -/
theorem enhanced_keeps_original_metadata_witness :
    Json.lookupField
        (Scraper.enhancedFields
          [("_metadata", Json.str "original"), ("nodes", Json.arr [])]
          (Json.str "fresh")) "_metadata" =
      some (Json.str "original") :=
  enhanced_keeps_original_metadata
    [("_metadata", Json.str "original"), ("nodes", Json.arr [])]
    (Json.str "fresh") (Json.str "original") (by decide) rfl

/-! ## C2: ranked index lists -/

/-- C2 evaluation: with a corpus of two excellent-tier workflows of
quality 85 then 95 in corpus order, the quality index keeps the tier
list in corpus order [85-entry, 95-entry] (quality ascending, refuting
the non-increasing ordering), because the tier entries carry no
quality_score field and the tier sort key x.get of quality_score
defaults to zero for every entry; the manifest over the same corpus, by
contrast, is correctly sorted to scores [95, 85]. -/
theorem quality_tier_order_bug :
    Indexes.generate_quality_index [Examples.storedA, Examples.storedB] =
      .ok ⟨[Examples.tierEntryA, Examples.tierEntryB], [], [], []⟩ ∧
    (Json.lookupField
        [("workflow_name", Json.str "A"), ("quality_score", Json.num 85)]
        "quality_score" = some (Json.num 85) ∧
      Json.lookupField
        [("workflow_name", Json.str "B"), ("quality_score", Json.num 95)]
        "quality_score" = some (Json.num 95) ∧ (85 : Int) < 95) ∧
    Indexes.entryQualityScore Examples.tierEntryA = 0 ∧
    Indexes.entryQualityScore Examples.tierEntryB = 0 ∧
    (Indexes.generate_manifest [Examples.storedA, Examples.storedB]).map
        (fun l => l.map Indexes.entryQualityScore) = .ok [95, 85] :=
  ⟨rfl, ⟨rfl, rfl, by decide⟩, rfl, rfl, rfl⟩

/-! ## C3: hybrid search merge -/

/-- C3 evaluation: in the hybrid branch, with vector results [A, B] and
keyword results [B, C] under limit 4, the deduplication key read raises
AttributeError (keyword results are pydantic model instances without a
get method), surfacing as a search error; in particular the claimed
merged list [A, B, C] is not returned. -/
theorem hybrid_merge_attribute_bug :
    Api.hybrid_search (fun _ => [Examples.semA, Examples.semB])
        (fun _ => [Examples.kwB, Examples.kwC]) 4 =
      .error "AttributeError: WorkflowResponse object has no attribute get" ∧
    Api.hybrid_search (fun _ => [Examples.semA, Examples.semB])
        (fun _ => [Examples.kwB, Examples.kwC]) 4 ≠
      .ok [.sem Examples.semA, .sem Examples.semB, .kw Examples.kwC] := by
  constructor
  · rfl
  · rw [show Api.hybrid_search (fun _ => [Examples.semA, Examples.semB])
        (fun _ => [Examples.kwB, Examples.kwC]) 4 =
      .error "AttributeError: WorkflowResponse object has no attribute get"
      from rfl]
    simp

/-! ## C9: extractor totality on ordinary shapes, and its limits -/

theorem jGet_obj_ok (fs : List (String × Json)) (k : String) (dflt : Json) :
    ∃ v, Json.jGet (.obj fs) k dflt = .ok v :=
  ⟨_, rfl⟩

theorem wellShaped_obj {d : Json} (h : Scraper.wellShaped d = true) :
    ∃ fs, d = .obj fs := by
  cases d <;> simp [Scraper.wellShaped] at h ⊢

theorem wellShaped_nodes {d : Json} (h : Scraper.wellShaped d = true) :
    ∃ ns, Json.jGet d "nodes" (.arr []) = .ok (.arr ns) ∧
      ∀ n ∈ ns, Scraper.goodNode n = true := by
  rcases wellShaped_obj h with ⟨fs, rfl⟩
  rw [Scraper.wellShaped, Bool.and_eq_true] at h
  rcases h with ⟨h1, -⟩
  cases hn : Json.lookupField fs "nodes" with
  | none =>
    exact ⟨[], by rw [Json.jGet, hn]; rfl, by simp⟩
  | some v =>
    rw [hn] at h1
    cases v with
    | arr ns =>
      refine ⟨ns, by rw [Json.jGet, hn]; rfl, ?_⟩
      intro n hn2
      exact List.all_eq_true.mp h1 n hn2
    | null => exact absurd h1 (by simp)
    | bool b => exact absurd h1 (by simp)
    | num n => exact absurd h1 (by simp)
    | str s => exact absurd h1 (by simp)
    | obj o => exact absurd h1 (by simp)

theorem wellShaped_connections {d : Json} (h : Scraper.wellShaped d = true) :
    ∃ cs, Json.jGet d "connections" (.obj []) = .ok (.obj cs) := by
  rcases wellShaped_obj h with ⟨fs, rfl⟩
  rw [Scraper.wellShaped, Bool.and_eq_true] at h
  rcases h with ⟨-, h2⟩
  cases hc : Json.lookupField fs "connections" with
  | none => exact ⟨[], by rw [Json.jGet, hc]; rfl⟩
  | some v =>
    rw [hc] at h2
    cases v with
    | obj cs => exact ⟨cs, by rw [Json.jGet, hc]; rfl⟩
    | null => exact absurd h2 (by simp)
    | bool b => exact absurd h2 (by simp)
    | num n => exact absurd h2 (by simp)
    | str s => exact absurd h2 (by simp)
    | arr a => exact absurd h2 (by simp)

theorem goodNode_obj {n : Json} (h : Scraper.goodNode n = true) :
    ∃ nfs, n = .obj nfs := by
  cases n <;> simp [Scraper.goodNode] at h ⊢

theorem strOrAbsent_get {fs : List (String × Json)} {k : String}
    (h : Scraper.strOrAbsent fs k = true) (dflt : String) :
    ∃ s, Json.jGet (.obj fs) k (.str dflt) = .ok (.str s) := by
  rw [Scraper.strOrAbsent] at h
  cases hl : Json.lookupField fs k with
  | none => exact ⟨dflt, by rw [Json.jGet, hl]; rfl⟩
  | some v =>
    rw [hl] at h
    cases v with
    | str s => exact ⟨s, by rw [Json.jGet, hl]; rfl⟩
    | null => exact absurd h (by simp)
    | bool b => exact absurd h (by simp)
    | num m => exact absurd h (by simp)
    | arr a => exact absurd h (by simp)
    | obj o => exact absurd h (by simp)

theorem goodNode_parts {n : Json} (h : Scraper.goodNode n = true) :
    (∃ s, Json.jGet n "type" (.str "") = .ok (.str s)) ∧
    (∃ s, Json.jGet n "name" (.str "") = .ok (.str s)) ∧
    (∃ pfs, Json.jGet n "parameters" (.obj []) = .ok (.obj pfs) ∧
      Scraper.strOrAbsent pfs "content" = true) := by
  rcases goodNode_obj h with ⟨nfs, rfl⟩
  rw [Scraper.goodNode, Bool.and_eq_true, Bool.and_eq_true] at h
  rcases h with ⟨⟨h1, h2⟩, h3⟩
  refine ⟨strOrAbsent_get h1 "", strOrAbsent_get h2 "", ?_⟩
  cases hp : Json.lookupField nfs "parameters" with
  | none => exact ⟨[], by rw [Json.jGet, hp]; rfl, rfl⟩
  | some v =>
    rw [hp] at h3
    cases v with
    | obj pfs => exact ⟨pfs, by rw [Json.jGet, hp]; rfl, h3⟩
    | null => exact absurd h3 (by simp)
    | bool b => exact absurd h3 (by simp)
    | num m => exact absurd h3 (by simp)
    | str s => exact absurd h3 (by simp)
    | arr a => exact absurd h3 (by simp)

theorem anyTypeContains_ok (needle : String) :
    ∀ ns : List Json, (∀ n ∈ ns, Scraper.goodNode n = true) →
      ∃ b, Scraper.anyTypeContains needle ns = .ok b := by
  intro ns
  induction ns with
  | nil => exact fun _ => ⟨false, rfl⟩
  | cons n rest ih =>
    intro hall
    rcases (goodNode_parts (hall n (List.mem_cons_self _ _))).1 with ⟨s, hs⟩
    rw [Scraper.anyTypeContains, exc_bind_ok_eq hs]
    rw [show Json.pyLower (.str s) = .ok (Json.lowerStr s) from rfl,
      exc_bind_ok]
    by_cases hc : Json.strContains (Json.lowerStr s) needle
    · exact ⟨true, by rw [if_pos hc]⟩
    · rcases ih (fun m hm => hall m (List.mem_cons_of_mem _ hm)) with ⟨b, hb⟩
      exact ⟨b, by rw [if_neg hc]; exact hb⟩

theorem anyHasKey_ok (needle : String) :
    ∀ ns : List Json, (∀ n ∈ ns, Scraper.goodNode n = true) →
      ∃ b, Scraper.anyHasKey needle ns = .ok b := by
  intro ns
  induction ns with
  | nil => exact fun _ => ⟨false, rfl⟩
  | cons n rest ih =>
    intro hall
    rcases goodNode_obj (hall n (List.mem_cons_self _ _)) with ⟨nfs, rfl⟩
    rw [Scraper.anyHasKey,
      exc_bind_ok_eq (show Json.pyContains needle (.obj nfs) = .ok _ from rfl)]
    by_cases hc : nfs.any (fun p => p.1 = needle)
    · exact ⟨true, by rw [if_pos hc]⟩
    · rcases ih (fun m hm => hall m (List.mem_cons_of_mem _ hm)) with ⟨b, hb⟩
      exact ⟨b, by rw [if_neg hc]; exact hb⟩

theorem nodeTypesLower_ok :
    ∀ ns : List Json, (∀ n ∈ ns, Scraper.goodNode n = true) →
      ∃ ts, Scraper.nodeTypesLower ns = .ok ts := by
  intro ns
  induction ns with
  | nil => exact fun _ => ⟨[], rfl⟩
  | cons n rest ih =>
    intro hall
    rcases (goodNode_parts (hall n (List.mem_cons_self _ _))).1 with ⟨s, hs⟩
    rcases ih (fun m hm => hall m (List.mem_cons_of_mem _ hm)) with ⟨ts, hts⟩
    refine ⟨Json.lowerStr s :: ts, ?_⟩
    rw [Scraper.nodeTypesLower, exc_bind_ok_eq hs,
      show Json.pyLower (.str s) = .ok (Json.lowerStr s) from rfl, exc_bind_ok,
      exc_bind_ok_eq hts]

theorem hasDocNodes_ok :
    ∀ ns : List Json, (∀ n ∈ ns, Scraper.goodNode n = true) →
      ∃ b, Scraper.hasDocNodes ns = .ok b := by
  intro ns
  induction ns with
  | nil => exact fun _ => ⟨false, rfl⟩
  | cons n rest ih =>
    intro hall
    have hgn := hall n (List.mem_cons_self _ _)
    rcases goodNode_obj hgn with ⟨nfs, rfl⟩
    rcases ih (fun m hm => hall m (List.mem_cons_of_mem _ hm)) with ⟨b, hb⟩
    rw [Scraper.hasDocNodes,
      exc_bind_ok_eq (show Json.jGet (.obj nfs) "type" .null = .ok _ from rfl)]
    by_cases ht : ((Json.lookupField nfs "type").getD .null) == Scraper.stickyType
    · rw [if_pos ht]
      rcases (goodNode_parts hgn).2.2 with ⟨pfs, hp, hcont⟩
      rw [exc_bind_ok_eq hp]
      rcases strOrAbsent_get hcont "" with ⟨cs, hcs⟩
      rw [exc_bind_ok_eq hcs,
        exc_bind_ok_eq (show Json.pyLen (.str cs) = .ok cs.length from rfl)]
      by_cases hl : cs.length > 100
      · exact ⟨true, by rw [if_pos hl]⟩
      · exact ⟨b, by rw [if_neg hl]; exact hb⟩
    · rw [if_neg ht]
      exact ⟨b, hb⟩

theorem countDefaultNames_ok :
    ∀ ns : List Json, (∀ n ∈ ns, Scraper.goodNode n = true) →
      ∃ c, Scraper.countDefaultNames ns = .ok c := by
  intro ns
  induction ns with
  | nil => exact fun _ => ⟨0, rfl⟩
  | cons n rest ih =>
    intro hall
    rcases (goodNode_parts (hall n (List.mem_cons_self _ _))).2.1 with ⟨s, hs⟩
    rcases ih (fun m hm => hall m (List.mem_cons_of_mem _ hm)) with ⟨c, hc⟩
    refine ⟨(if Scraper.defaultNodeName s then 1 else 0) + c, ?_⟩
    rw [Scraper.countDefaultNames, exc_bind_ok_eq hs,
      show Json.asStr (.str s) = .ok s from rfl, exc_bind_ok,
      exc_bind_ok_eq hc]

theorem descriptionParts_ok :
    ∀ ns : List Json, (∀ n ∈ ns, Scraper.goodNode n = true) →
      ∃ ps, Scraper.descriptionParts ns = .ok ps := by
  intro ns
  induction ns with
  | nil => exact fun _ => ⟨[], rfl⟩
  | cons n rest ih =>
    intro hall
    have hgn := hall n (List.mem_cons_self _ _)
    rcases goodNode_obj hgn with ⟨nfs, rfl⟩
    rcases ih (fun m hm => hall m (List.mem_cons_of_mem _ hm)) with ⟨ps, hps⟩
    rw [Scraper.descriptionParts,
      exc_bind_ok_eq (show Json.jGet (.obj nfs) "type" .null = .ok _ from rfl)]
    by_cases ht : ((Json.lookupField nfs "type").getD .null) == Scraper.stickyType
    · rw [if_pos ht]
      rcases (goodNode_parts hgn).2.2 with ⟨pfs, hp, hcont⟩
      rw [exc_bind_ok_eq hp]
      rcases strOrAbsent_get hcont "" with ⟨cs, hcs⟩
      rw [exc_bind_ok_eq hcs]
      by_cases htr : Scraper.pyTruthy (.str cs)
      · rw [if_pos htr, show Json.asStr (.str cs) = .ok cs from rfl,
          exc_bind_ok, exc_bind_ok_eq hps]
        exact ⟨_, rfl⟩
      · rw [if_neg htr]
        exact ⟨ps, hps⟩
    · rw [if_neg ht]
      exact ⟨ps, hps⟩

theorem getNodesList_ok {d : Json} (h : Scraper.wellShaped d = true) :
    ∃ ns, Scraper.getNodesList d = .ok ns ∧
      ∀ n ∈ ns, Scraper.goodNode n = true := by
  rcases wellShaped_nodes h with ⟨ns, hn, hall⟩
  refine ⟨ns, ?_, hall⟩
  rw [Scraper.getNodesList, Scraper.getNodesRaw, exc_bind_ok_eq hn]
  rfl

theorem nodeCountOf_ok {d : Json} (h : Scraper.wellShaped d = true) :
    ∃ c, Scraper.nodeCountOf d = .ok c := by
  rcases wellShaped_nodes h with ⟨ns, hn, -⟩
  exact ⟨ns.length, by rw [Scraper.nodeCountOf, exc_bind_ok_eq hn]; rfl⟩

theorem connCountOf_ok {d : Json} (h : Scraper.wellShaped d = true) :
    ∃ c, Scraper.connCountOf d = .ok c := by
  rcases wellShaped_connections h with ⟨cs, hc⟩
  exact ⟨cs.length, by rw [Scraper.connCountOf, exc_bind_ok_eq hc]; rfl⟩

theorem hasCondNodes_ok {d : Json} (h : Scraper.wellShaped d = true) :
    ∃ b, Scraper.hasCondNodes d = .ok b := by
  rcases getNodesList_ok h with ⟨ns, hn, hall⟩
  rcases anyTypeContains_ok "if" ns hall with ⟨b, hb⟩
  exact ⟨b, by rw [Scraper.hasCondNodes, exc_bind_ok_eq hn]; exact hb⟩

theorem hasLoopNodes_ok {d : Json} (h : Scraper.wellShaped d = true) :
    ∃ b, Scraper.hasLoopNodes d = .ok b := by
  rcases getNodesList_ok h with ⟨ns, hn, hall⟩
  rcases anyTypeContains_ok "loop" ns hall with ⟨b, hb⟩
  exact ⟨b, by rw [Scraper.hasLoopNodes, exc_bind_ok_eq hn]; exact hb⟩

theorem extract_integrations_ok {d : Json} (h : Scraper.wellShaped d = true) :
    ∃ l, Scraper.extract_integrations d = .ok l := by
  rcases getNodesList_ok h with ⟨ns, hn, hall⟩
  rcases nodeTypesLower_ok ns hall with ⟨ts, hts⟩
  exact ⟨_, by
    rw [Scraper.extract_integrations, exc_bind_ok_eq hn, exc_bind_ok_eq hts]⟩

theorem calculate_complexity_ok {d : Json} (h : Scraper.wellShaped d = true) :
    ∃ t, Scraper.calculate_complexity d = .ok t := by
  rcases nodeCountOf_ok h with ⟨nc, h1⟩
  rcases connCountOf_ok h with ⟨cc, h2⟩
  rcases hasCondNodes_ok h with ⟨b1, h3⟩
  rcases hasLoopNodes_ok h with ⟨b2, h4⟩
  rw [Scraper.calculate_complexity, exc_bind_ok_eq h1, exc_bind_ok_eq h2,
    exc_bind_ok_eq h3, exc_bind_ok_eq h4]
  by_cases c1 : Scraper.complexityScore2 nc cc b1 b2 ≤ 10
  · exact ⟨"beginner", by rw [if_pos c1]⟩
  · by_cases c2 : Scraper.complexityScore2 nc cc b1 b2 ≤ 30
    · exact ⟨"intermediate", by rw [if_neg c1, if_pos c2]⟩
    · exact ⟨"advanced", by rw [if_neg c1, if_neg c2]⟩

theorem has_documentation_ok {d : Json} (h : Scraper.wellShaped d = true) :
    ∃ b, Scraper.has_documentation d = .ok b := by
  rcases getNodesList_ok h with ⟨ns, hn, hall⟩
  rcases hasDocNodes_ok ns hall with ⟨b, hb⟩
  exact ⟨b, by rw [Scraper.has_documentation, exc_bind_ok_eq hn]; exact hb⟩

theorem uses_proper_credentials_ok {d : Json}
    (h : Scraper.wellShaped d = true) :
    ∃ b, Scraper.uses_proper_credentials d = .ok b := by
  rw [Scraper.uses_proper_credentials]
  by_cases hs : Scraper.hasHardcodedSecret (Json.dumps d)
  · exact ⟨false, by rw [if_pos hs]⟩
  · rcases getNodesList_ok h with ⟨ns, hn, hall⟩
    rcases anyHasKey_ok "credentials" ns hall with ⟨b, hb⟩
    exact ⟨b, by rw [if_neg hs, exc_bind_ok_eq hn]; exact hb⟩

theorem is_well_organized_ok {d : Json} (h : Scraper.wellShaped d = true) :
    ∃ b, Scraper.is_well_organized d = .ok b := by
  rcases wellShaped_nodes h with ⟨ns, hn, hall⟩
  rw [Scraper.is_well_organized, exc_bind_ok_eq hn,
    exc_bind_ok_eq (show Json.pyLen (.arr ns) = .ok ns.length from rfl)]
  by_cases hl : ns.length < 3
  · exact ⟨true, by rw [if_pos hl]⟩
  · rw [if_neg hl,
      exc_bind_ok_eq (show Json.pyIter (.arr ns) = .ok ns from rfl)]
    rcases countDefaultNames_ok ns hall with ⟨c, hc⟩
    exact ⟨_, by rw [exc_bind_ok_eq hc]⟩

theorem calculate_quality_score_ok {d : Json}
    (h : Scraper.wellShaped d = true) :
    ∃ q, Scraper.calculate_quality_score d = .ok q := by
  rcases has_documentation_ok h with ⟨b1, h1⟩
  rcases uses_proper_credentials_ok h with ⟨b2, h2⟩
  rcases is_well_organized_ok h with ⟨b4, h4⟩
  rw [Scraper.calculate_quality_score, exc_bind_ok_eq h1, exc_bind_ok_eq h2,
    exc_bind_ok_eq h4]
  exact ⟨_, rfl⟩

theorem extract_description_ok {d : Json} (h : Scraper.wellShaped d = true) :
    ∃ s, Scraper.extract_description d = .ok s := by
  rcases getNodesList_ok h with ⟨ns, hn, hall⟩
  rcases descriptionParts_ok ns hall with ⟨ps, hps⟩
  exact ⟨_, by
    rw [Scraper.extract_description, exc_bind_ok_eq hn, exc_bind_ok_eq hps]⟩

/-- C9 (amended): on every ordinarily shaped document — missing name,
nodes or connections fields allowed, node dictionaries may lack type,
name and parameters — the extractor returns a metadata record rather
than raising, and on the empty document the record consists of the
documented defaults (zero counts, empty collections, the general
category, the untitled name); for other shapes the extractor can raise,
as the companion counterexample shows. -/
theorem extract_metadata_total (d : Json) (u t : String)
    (h : Scraper.wellShaped d = true) :
    (Scraper.extract_metadata_from_workflow d u t).isOk = true ∧
    Scraper.extract_metadata_from_workflow (Json.obj []) u t = .ok (.obj
      [("workflow_name", .str "Untitled Workflow"),
       ("scraped_at", .str t),
       ("source_url", .str u),
       ("node_count", .num 0),
       ("connection_count", .num 0),
       ("has_trigger", .bool false),
       ("has_credentials", .bool false),
       ("integrations", .arr []),
       ("categories", .arr [Json.str "general"]),
       ("complexity", .str "beginner"),
       ("quality_score", .num 10),
       ("description", .str "")]) := by
  constructor
  · rcases wellShaped_obj h with ⟨fs, rfl⟩
    rcases nodeCountOf_ok h with ⟨nc, h1⟩
    rcases connCountOf_ok h with ⟨cc, h2⟩
    rcases getNodesList_ok h with ⟨ns, hn, hall⟩
    rcases anyTypeContains_ok "trigger" ns hall with ⟨tb, htb⟩
    rcases anyHasKey_ok "credentials" ns hall with ⟨cb, hcb⟩
    rcases extract_integrations_ok h with ⟨il, hil⟩
    rcases calculate_complexity_ok h with ⟨cx, hcx⟩
    rcases calculate_quality_score_ok h with ⟨q, hq⟩
    rcases extract_description_ok h with ⟨ds, hds⟩
    simp only [Scraper.extract_metadata_from_workflow, Json.jGet, h1, h2, hn,
      htb, hcb, hil, hcx, hq, hds, exc_bind_ok]
    rfl
  · rfl

/-- Counterexample for C9 as stated: a document whose connections field
is the number five makes the extractor raise TypeError at the
connection count, so the extractor is not total on arbitrary
documents. -/
theorem extract_metadata_raises_on_bad_connections :
    Scraper.extract_metadata_from_workflow Examples.badConnDoc "u" "t" =
      .error "TypeError: object has no len" := rfl

/-- Witness for C9 at a small ordinary workflow. -/
theorem extract_metadata_total_witness :
    (Scraper.extract_metadata_from_workflow Examples.okDoc "u" "t").isOk =
      true :=
  (extract_metadata_total Examples.okDoc "u" "t" (by decide)).1

/-! ## C4 and C5: ranking properties of the semantic search -/

theorem argRel_le {sims : List ℚ} {i j : Nat}
    (h : Semantic.argRel sims i j) : sims.getD i 0 ≤ sims.getD j 0 := by
  rcases h with h | ⟨h, -⟩
  · exact le_of_lt h
  · exact le_of_eq h

theorem argsort_length (sims : List ℚ) :
    (Semantic.argsort sims).length = sims.length := by
  rw [Semantic.argsort, (List.perm_insertionSort _ _).length_eq,
    List.length_range]

theorem argsort_mem {sims : List ℚ} {i : Nat} :
    i ∈ Semantic.argsort sims ↔ i < sims.length := by
  rw [Semantic.argsort, (List.perm_insertionSort _ _).mem_iff, List.mem_range]

theorem argsort_nodup (sims : List ℚ) : (Semantic.argsort sims).Nodup := by
  rw [Semantic.argsort]
  exact ((List.perm_insertionSort _ _).nodup_iff).mpr (List.nodup_range _)

theorem argsort_sorted (sims : List ℚ) :
    (Semantic.argsort sims).Pairwise (Semantic.argRel sims) := by
  rw [Semantic.argsort]
  exact List.sorted_insertionSort _ _

/-- The selected positions of a search: count, descending similarity,
optimality of the selection, and reverse corpus order on ties. -/
theorem searchIndices_spec (sims : List ℚ) (k : Nat) :
    (Semantic.searchIndices sims k).length = min k sims.length ∧
    (Semantic.searchIndices sims k).Pairwise
      (fun i j => sims.getD j 0 ≤ sims.getD i 0) ∧
    (∀ j, j < sims.length → j ∉ Semantic.searchIndices sims k →
      ∀ i ∈ Semantic.searchIndices sims k,
        sims.getD j 0 ≤ sims.getD i 0) ∧
    (Semantic.searchIndices sims k).Pairwise
      (fun i j => sims.getD i 0 = sims.getD j 0 → j < i) := by
  have hrev : ((Semantic.argsort sims).reverse).Pairwise
      (fun i j => Semantic.argRel sims j i) :=
    List.pairwise_reverse.mpr (argsort_sorted sims)
  have hdesc : ((Semantic.argsort sims).reverse).Pairwise
      (fun i j => sims.getD j 0 ≤ sims.getD i 0) :=
    hrev.imp (fun h => argRel_le h)
  refine ⟨?_, ?_, ?_, ?_⟩
  · rw [Semantic.searchIndices, List.length_take, List.length_reverse,
      argsort_length]
  · exact List.Pairwise.sublist (List.take_sublist _ _) hdesc
  · intro j hj hnot i hi
    have hjR : j ∈ (Semantic.argsort sims).reverse := by
      rw [List.mem_reverse, argsort_mem]
      exact hj
    have hjd : j ∈ ((Semantic.argsort sims).reverse).drop k := by
      rcases List.mem_append.mp
          ((List.take_append_drop k (Semantic.argsort sims).reverse) ▸ hjR)
        with h | h
      · exact absurd h hnot
      · exact h
    exact List.Sorted.rel_of_mem_take_of_mem_drop hdesc hi hjd
  · have hnd : ((Semantic.argsort sims).reverse).Nodup :=
      List.nodup_reverse.mpr (argsort_nodup sims)
    have hcomb := hrev.and hnd
    have hties : ((Semantic.argsort sims).reverse).Pairwise
        (fun i j => sims.getD i 0 = sims.getD j 0 → j < i) := by
      refine hcomb.imp ?_
      rintro a b ⟨hr, hne⟩ heq
      rcases hr with hlt | ⟨-, hle⟩
      · rw [heq] at hlt
        exact absurd hlt (lt_irrefl _)
      · exact Nat.lt_of_le_of_ne hle (Ne.symm hne)
    exact List.Pairwise.sublist (List.take_sublist _ _) hties

theorem mkResults_map_score (S : Semantic.SemanticIndex) (sims : List ℚ)
    (idxs : List Nat) :
    (Semantic.mkResults S sims idxs).map (fun r => r.score) =
      idxs.map (fun i => sims.getD i 0) := by
  unfold Semantic.mkResults
  rw [List.map_map,
    show ((fun r : Semantic.SearchResult => r.score) ∘ fun p : Nat × Nat =>
        ({ rank := p.1 + 1, score := sims.getD p.2 0,
           workflow_id := (S.items.getD p.2 default).workflow_id,
           filename := (S.items.getD p.2 default).filename,
           name := Semantic.lookupName S.names
             (S.items.getD p.2 default).workflow_id,
           search_text :=
             Semantic.truncText
               (S.items.getD p.2 default).search_text } :
          Semantic.SearchResult)) =
      (fun i => sims.getD i 0) ∘ Prod.snd from rfl,
    ← List.map_map, List.enum_map_snd]

theorem mkResults_mem {S : Semantic.SemanticIndex} {sims : List ℚ}
    {idxs : List Nat} {r : Semantic.SearchResult}
    (h : r ∈ Semantic.mkResults S sims idxs) :
    ∃ idx ∈ idxs, r.workflow_id = (S.items.getD idx default).workflow_id := by
  unfold Semantic.mkResults at h
  rcases List.mem_map.mp h with ⟨p, hp, rfl⟩
  refine ⟨p.2, ?_, rfl⟩
  have h2 : p.2 ∈ idxs.enum.map Prod.snd := List.mem_map.mpr ⟨p, hp, rfl⟩
  rwa [List.enum_map_snd] at h2

/-- C4 (amended): the search result is the formatted selection of the
descending-argsort prefix of the cosine similarity row; there are
min(top_k, corpus size) results; the attached scores are the
similarities of the selected documents in non-increasing order; every
non-selected document has similarity at most that of every selected
one; documents of equal similarity appear in reverse corpus order
(stable ascending argsort followed by full reversal), not corpus order;
and a query token outside the fitted vocabulary is dropped by the
transform, never an error. -/
theorem search_spec (S : Semantic.SemanticIndex) (query : String) (k : Nat) :
    S.search query k =
      Semantic.mkResults S (Semantic.searchSims S query)
        (Semantic.searchIndices (Semantic.searchSims S query) k) ∧
    (Semantic.searchIndices (Semantic.searchSims S query) k).length =
      min k S.items.length ∧
    (S.search query k).map (fun r => r.score) =
      (Semantic.searchIndices (Semantic.searchSims S query) k).map
        (fun i => (Semantic.searchSims S query).getD i 0) ∧
    (Semantic.searchIndices (Semantic.searchSims S query) k).Pairwise
      (fun i j => (Semantic.searchSims S query).getD j 0 ≤
        (Semantic.searchSims S query).getD i 0) ∧
    (∀ j, j < S.items.length →
      j ∉ Semantic.searchIndices (Semantic.searchSims S query) k →
      ∀ i ∈ Semantic.searchIndices (Semantic.searchSims S query) k,
        (Semantic.searchSims S query).getD j 0 ≤
          (Semantic.searchSims S query).getD i 0) ∧
    (Semantic.searchIndices (Semantic.searchSims S query) k).Pairwise
      (fun i j => (Semantic.searchSims S query).getD i 0 =
        (Semantic.searchSims S query).getD j 0 → j < i) ∧
    (∀ toks tok, tok ∉ S.vocab →
      Semantic.transformTokens S.vocab S.idf (toks ++ [tok]) =
        Semantic.transformTokens S.vocab S.idf toks) := by
  have hlen : (Semantic.searchSims S query).length = S.items.length :=
    List.length_map _ _
  have hspec := searchIndices_spec (Semantic.searchSims S query) k
  refine ⟨rfl, by rw [hspec.1, hlen], ?_, hspec.2.1, ?_, hspec.2.2.2, ?_⟩
  · exact mkResults_map_score S _ _
  · intro j hj
    exact hspec.2.2.1 j (by rw [hlen]; exact hj)
  · intro toks tok htok
    unfold Semantic.transformTokens
    refine List.map_congr_left ?_
    intro p hp
    have hmem : p.1 ∈ S.vocab := (List.of_mem_zip hp).1
    have hne2 : ¬(tok = p.1) := fun he => htok (he ▸ hmem)
    rw [Semantic.countTok, Semantic.countTok, List.filter_append,
      show List.filter (fun x => decide (x = p.1)) [tok] = [] from by
        simp [List.filter, hne2],
      List.append_nil]

/-- Witness for C4: an out-of-vocabulary token appended to a query makes
no difference to the transformed vector of a concrete fitted corpus. -/
theorem search_spec_witness :
    Semantic.transformTokens ["email"] [1] (["em"] ++ ["zzz"]) =
      Semantic.transformTokens ["email"] [1] ["em"] :=
  (search_spec Examples.twoIndex "email" 1).2.2.2.2.2.2 ["em"] "zzz"
    (by decide)

/-- Counterexample to C4 as stated: with two corpus documents of
identical embeddings (hence equal similarity to the query), the search
returns them in reverse corpus order [B, A], not corpus order [A, B]. -/
theorem search_tie_reverse_order :
    (Examples.dupIndex.search "email" 2).map (fun r => r.workflow_id) =
      ["B", "A"] ∧
    (Examples.dupIndex.search "email" 2).map (fun r => r.workflow_id) ≠
      ["A", "B"] := by
  have hcount : Semantic.countTok (Semantic.tokenize "email") "email" = 1 := by
    decide
  have hq : Semantic.transformTokens ["email"] [1]
      (Semantic.tokenize "email") = [1] := by
    unfold Semantic.transformTokens
    rw [show (["email"] : List String).zip [(1 : ℚ)] = [("email", (1 : ℚ))]
      from rfl]
    rw [List.map_cons, List.map_nil, hcount]
    norm_num
  have hcos : Semantic.cosSq [1] [1] = 1 := by
    rw [Semantic.cosSq]
    norm_num [Semantic.dot]
  have hsims : Semantic.searchSims Examples.dupIndex "email" = [1, 1] := by
    unfold Semantic.searchSims
    rw [show Examples.dupIndex.vocab = ["email"] from rfl,
      show Examples.dupIndex.idf = [(1 : ℚ)] from rfl, hq]
    rw [show Examples.dupIndex.items =
      [⟨"A", "a.json", "ta", [1]⟩, ⟨"B", "b.json", "tb", [1]⟩] from rfl]
    rw [List.map_cons, List.map_cons, List.map_nil]
    show [Semantic.cosSq [1] [1], Semantic.cosSq [1] [1]] = [1, 1]
    rw [hcos]
  have h01 : Semantic.argRel [1, 1] 0 1 := Or.inr ⟨rfl, Nat.zero_le 1⟩
  have hsort : Semantic.argsort [1, 1] = [0, 1] := by
    rw [Semantic.argsort]
    rw [show List.range ([(1 : ℚ), 1].length) = [0, 1] from rfl]
    show List.orderedInsert _ 0 (List.orderedInsert _ 1 []) = [0, 1]
    rw [List.orderedInsert_nil]
    unfold List.orderedInsert
    rw [if_pos h01]
  have hidx : Semantic.searchIndices
      (Semantic.searchSims Examples.dupIndex "email") 2 = [1, 0] := by
    rw [Semantic.searchIndices, hsims, hsort]
    rfl
  have hsearch : Examples.dupIndex.search "email" 2 =
      Semantic.mkResults Examples.dupIndex
        (Semantic.searchSims Examples.dupIndex "email") [1, 0] := by
    rw [show Examples.dupIndex.search "email" 2 =
      Semantic.mkResults Examples.dupIndex
        (Semantic.searchSims Examples.dupIndex "email")
        (Semantic.searchIndices
          (Semantic.searchSims Examples.dupIndex "email") 2) from rfl, hidx]
  have main : (Examples.dupIndex.search "email" 2).map
      (fun r => r.workflow_id) = ["B", "A"] := by
    rw [hsearch]
    rfl
  exact ⟨main, by rw [main]; decide⟩

theorem findIdx?_some_getD {α : Type} [Inhabited α] {p : α → Bool} :
    ∀ {l : List α} {i : Nat}, l.findIdx? p = some i →
      i < l.length ∧ p (l.getD i default) = true := by
  intro l
  induction l with
  | nil =>
    intro i h
    simp at h
  | cons x xs ih =>
    intro i h
    rw [List.findIdx?_cons] at h
    by_cases hp : p x
    · rw [if_pos hp] at h
      cases h
      exact ⟨Nat.succ_pos _, hp⟩
    · rw [if_neg hp, List.findIdx?_succ] at h
      rcases Option.map_eq_some'.mp h with ⟨j, hj, rfl⟩
      rcases ih hj with ⟨hlt, hpj⟩
      exact ⟨Nat.succ_lt_succ hlt, hpj⟩

theorem argsort_reverse_strict_max {sims : List ℚ} {i0 : Nat}
    (hi0 : i0 < sims.length)
    (hmax : ∀ j, j < sims.length → j ≠ i0 →
      sims.getD j 0 < sims.getD i0 0) :
    ∃ rest : List Nat, (Semantic.argsort sims).reverse = i0 :: rest ∧
      i0 ∉ rest := by
  have hne : Semantic.argsort sims ≠ [] := by
    intro h
    have hl := argsort_length sims
    rw [h] at hl
    simp at hl
    omega
  have hdecomp := List.dropLast_concat_getLast hne
  have hLmem : (Semantic.argsort sims).getLast hne ∈ Semantic.argsort sims :=
    List.getLast_mem hne
  have hLlt : (Semantic.argsort sims).getLast hne < sims.length :=
    argsort_mem.mp hLmem
  have hL : (Semantic.argsort sims).getLast hne = i0 := by
    by_contra hLne
    have hi0A : i0 ∈ Semantic.argsort sims := argsort_mem.mpr hi0
    rw [← hdecomp] at hi0A
    have hi0drop : i0 ∈ (Semantic.argsort sims).dropLast := by
      rcases List.mem_append.mp hi0A with h | h
      · exact h
      · exact absurd (List.mem_singleton.mp h).symm hLne
    have hpw := argsort_sorted sims
    rw [← hdecomp] at hpw
    have hrel := (List.pairwise_append.mp hpw).2.2 i0 hi0drop
      ((Semantic.argsort sims).getLast hne) (List.mem_singleton.mpr rfl)
    exact absurd (argRel_le hrel)
      (not_le.mpr (hmax _ hLlt hLne))
  refine ⟨(Semantic.argsort sims).dropLast.reverse, ?_, ?_⟩
  · conv_lhs => rw [← hdecomp]
    rw [List.reverse_append, hL]
    rfl
  · intro hmem
    rw [List.mem_reverse] at hmem
    have hnd := argsort_nodup sims
    rw [← hdecomp] at hnd
    exact absurd (List.mem_singleton.mpr rfl)
      (List.disjoint_of_nodup_append hnd (hL ▸ hmem))

/-- C5 (amended): an unknown workflow id gives the empty list as a
normal outcome; for a known id whose first corpus row has strictly
greater similarity to itself than every other row (no duplicate top
similarity) and with pairwise distinct workflow ids, the results never
contain the id itself — the code drops exactly the first entry of the
descending ranking, which under a tie at the top need not be the
document itself. -/
theorem find_similar_spec (S : Semantic.SemanticIndex) (id : String)
    (k : Nat) :
    (S.items.findIdx? (fun it => it.workflow_id = id) = none →
      S.find_similar id k = []) ∧
    (∀ i0, S.items.findIdx? (fun it => it.workflow_id = id) = some i0 →
      (∀ j, j < S.items.length → j ≠ i0 →
        (Semantic.similarSims S i0).getD j 0 <
          (Semantic.similarSims S i0).getD i0 0) →
      (S.items.map (fun it => it.workflow_id)).Nodup →
      ∀ r ∈ S.find_similar id k, r.workflow_id ≠ id) := by
  constructor
  · intro h
    unfold Semantic.SemanticIndex.find_similar
    rw [h]
  · intro i0 hfind hmax hnd r hr
    have hfound := findIdx?_some_getD hfind
    have hi0lt : i0 < S.items.length := hfound.1
    have hi0id : (S.items.getD i0 default).workflow_id = id := by
      have := hfound.2
      simpa using this
    have hlen : (Semantic.similarSims S i0).length = S.items.length :=
      List.length_map _ _
    obtain ⟨rest, hrev, hi0rest⟩ := @argsort_reverse_strict_max
      (Semantic.similarSims S i0) i0 (by rw [hlen]; exact hi0lt)
      (fun j hj hne => hmax j (by rwa [hlen] at hj) hne)
    unfold Semantic.SemanticIndex.find_similar at hr
    rw [hfind] at hr
    have hr2 : r ∈ Semantic.mkResults S (Semantic.similarSims S i0)
        (((((Semantic.argsort (Semantic.similarSims S i0)).reverse).drop 1)).take k) :=
      hr
    rw [hrev, show (i0 :: rest).drop 1 = rest from rfl] at hr2
    rcases mkResults_mem hr2 with ⟨idx, hidx, hrid⟩
    have hidxrest : idx ∈ rest := List.take_subset _ _ hidx
    have hne0 : idx ≠ i0 := fun h => hi0rest (h ▸ hidxrest)
    have hidxA : idx ∈ (Semantic.argsort (Semantic.similarSims S i0)).reverse := by
      rw [hrev]
      exact List.mem_cons_of_mem _ hidxrest
    have hidxlt : idx < S.items.length := by
      rw [← hlen]
      exact argsort_mem.mp (List.mem_reverse.mp hidxA)
    rw [hrid, ← hi0id]
    intro heq
    apply hne0
    have hmap : (S.items.map (fun it => it.workflow_id)).get
        ⟨idx, by rw [List.length_map]; exact hidxlt⟩ =
        (S.items.map (fun it => it.workflow_id)).get
        ⟨i0, by rw [List.length_map]; exact hi0lt⟩ := by
      rw [List.get_eq_getElem, List.get_eq_getElem, List.getElem_map,
        List.getElem_map, ← List.getD_eq_getElem S.items default hidxlt,
        ← List.getD_eq_getElem S.items default hi0lt]
      exact heq
    exact congrArg Fin.val ((List.Nodup.get_inj_iff hnd).mp hmap)

/-- Witness for C5: an unknown id yields the empty list. -/
theorem find_similar_spec_witness :
    Examples.twoIndex.find_similar "Z" 5 = [] :=
  (find_similar_spec Examples.twoIndex "Z" 5).1 rfl

/-- Counterexample to C5 as stated: in a corpus of two documents with
identical embeddings, find_similar for the first document returns the
document itself (the dropped first ranking entry is the other document,
which ties at similarity one and wins the stable-sort reversal). -/
theorem find_similar_contains_self :
    Examples.dupIndex.items.length = 2 ∧
    (Examples.dupIndex.find_similar "A" 1).map (fun r => r.workflow_id) =
      ["A"] := by
  refine ⟨rfl, ?_⟩
  have hcos : Semantic.cosSq [1] [1] = 1 := by
    rw [Semantic.cosSq]
    norm_num [Semantic.dot]
  have hsims : Semantic.similarSims Examples.dupIndex 0 = [1, 1] := by
    unfold Semantic.similarSims
    show [Semantic.cosSq [1] [1], Semantic.cosSq [1] [1]] = [1, 1]
    rw [hcos]
  have h01 : Semantic.argRel [1, 1] 0 1 := Or.inr ⟨rfl, Nat.zero_le 1⟩
  have hsort : Semantic.argsort [1, 1] = [0, 1] := by
    rw [Semantic.argsort]
    rw [show List.range ([(1 : ℚ), 1].length) = [0, 1] from rfl]
    show List.orderedInsert _ 0 (List.orderedInsert _ 1 []) = [0, 1]
    rw [List.orderedInsert_nil]
    unfold List.orderedInsert
    rw [if_pos h01]
  have hfs : Examples.dupIndex.find_similar "A" 1 =
      Semantic.mkResults Examples.dupIndex
        (Semantic.similarSims Examples.dupIndex 0)
        ((((Semantic.argsort
          (Semantic.similarSims Examples.dupIndex 0)).reverse).drop 1).take 1) :=
    rfl
  rw [hfs, hsims, hsort]
  rfl
